import Mathlib

/-!
A shallow embedding of the inventory-go Movement Ledger: the product stock
register, the three transaction families (stock-in, sale, reject) with their
line items, the repository operations that mutate them, the HTTP handlers
that validate and orchestrate those operations, and the database triggers
declared in db/schema.sql.

Modelling conventions:
* Monetary columns (DECIMAL in the schema, float64 in Go) are `Rat`;
  quantities and stock counters (INTEGER, Go int) are `Int`.
* A soft delete (`deleted_at` timestamp) is the boolean `deletedAt`
  (`true` means the row carries a non-NULL `deleted_at`).
* Tables are lists of rows inside one `DB` value.  A SQL `UPDATE ... WHERE`
  is a `List.map` guarded by the WHERE predicate, an `INSERT` is an append
  (with a primary-key collision check), and a repository method that runs
  inside a BEGIN/COMMIT block is an `Except String DB`: an error result
  means the whole transaction rolled back and the database is unchanged.
* HTTP handlers return `DB × Option String`: the (possibly updated)
  database plus the error message written by `respondWithError`, if any.
* Timestamps, pagination and columns no claim touches (notes, dates,
  reference generation, images, categories) are omitted.
-/

/-- A row of `products` (stock-relevant columns; `name` is `basic->>'name'`). -/
structure Product where
  id : String
  name : String
  stock : Int
  deletedAt : Bool
  deriving Repr, DecidableEq

/-- A row of `suppliers` (rollup columns only). -/
structure Supplier where
  id : String
  totalPurchases : Int
  totalSpent : Rat
  deletedAt : Bool
  deriving Repr, DecidableEq

/-- A row of `customers` (rollup columns only). -/
structure Customer where
  id : String
  totalOrders : Int
  totalSpent : Rat
  deletedAt : Bool
  deriving Repr, DecidableEq

/-- A row of `stock_in_items` (models.StockInItem). -/
structure StockInItem where
  id : String
  stockInID : String
  productID : String
  productName : String
  quantity : Int
  unitCost : Rat
  tax : Rat
  discount : Rat
  subtotal : Rat
  deletedAt : Bool
  deriving Repr, DecidableEq

/-- A row of `stock_ins` (models.StockIn); `items` mirrors the in-memory
Go slice, which is populated by GetByID and used as the Create payload. -/
structure StockIn where
  id : String
  referenceNo : String
  status : String
  total : Rat
  paid : Rat
  balance : Rat
  supplierID : Option String
  items : List StockInItem
  deletedAt : Bool
  deriving Repr, DecidableEq

/-- A row of `sale_items` (models.SaleItem). -/
structure SaleItem where
  id : String
  saleID : String
  productID : String
  productName : String
  quantity : Int
  unitPrice : Rat
  tax : Rat
  discount : Rat
  subtotal : Rat
  deletedAt : Bool
  deriving Repr, DecidableEq

/-- A row of `sales` (models.Sale); `items` mirrors the in-memory Go slice. -/
structure Sale where
  id : String
  referenceNo : String
  status : String
  total : Rat
  paid : Rat
  balance : Rat
  customerID : Option String
  items : List SaleItem
  deletedAt : Bool
  deriving Repr, DecidableEq

/-- A row of `reject_items` (models.RejectItem; no tax or discount column). -/
structure RejectItem where
  id : String
  rejectID : String
  productID : String
  productName : String
  quantity : Int
  unitCost : Rat
  subtotal : Rat
  deletedAt : Bool
  deriving Repr, DecidableEq

/-- A row of `rejects` (models.Reject); `items` mirrors the in-memory Go slice. -/
structure Reject where
  id : String
  referenceNo : String
  status : String
  total : Rat
  items : List RejectItem
  deletedAt : Bool
  deriving Repr, DecidableEq

/-- The whole persistent store. -/
structure DB where
  products : List Product
  suppliers : List Supplier
  customers : List Customer
  stockIns : List StockIn
  stockInItems : List StockInItem
  sales : List Sale
  saleItems : List SaleItem
  rejects : List Reject
  rejectItems : List RejectItem
  deriving Repr, DecidableEq

/-- models.RejectStatusCompleted. -/
def RejectStatusCompleted : String := "completed"

/-- models.RejectStatusCancelled. -/
def RejectStatusCancelled : String := "cancelled"

/-- models.SaleStatusCompleted. -/
def SaleStatusCompleted : String := "completed"

/-- `UPDATE products SET stock = stock + delta WHERE id = pid` (the atomic
server-side read-modify-write used by the stock-in repository). -/
def updateProductStock (db : DB) (pid : String) (delta : Int) : DB :=
  { db with products := db.products.map fun p =>
      if p.id = pid then { p with stock := p.stock + delta } else p }

/-- Rows of `stock_in_items` WHERE `stock_in_id = sid AND deleted_at IS NULL`. -/
def survivingStockInItems (items : List StockInItem) (sid : String) : List StockInItem :=
  items.filter fun it => it.stockInID = sid ∧ it.deletedAt = false

/-- `SELECT SUM(subtotal) FROM stock_in_items WHERE stock_in_id = sid AND
deleted_at IS NULL` — SQL SUM over no rows is NULL, hence the `Option`. -/
def sqlSumStockIn (items : List StockInItem) (sid : String) : Option Rat :=
  match survivingStockInItems items sid with
  | [] => none
  | rows => some ((rows.map StockInItem.subtotal).sum)

/-- The same aggregate with `COALESCE(SUM(subtotal), 0)`: the fresh
recomputation of a stock-in total from its current surviving items. -/
def stockInTotalOf (items : List StockInItem) (sid : String) : Rat :=
  ((survivingStockInItems items sid).map StockInItem.subtotal).sum

/-- `UPDATE stock_ins SET total = v WHERE id = sid`.  The only trigger on
`stock_ins` updates besides timestamps is update_product_quantity_after_stock_in,
whose guard requires a status transition; this statement never changes `status`,
so the guard is false on every row it touches. -/
def setStockInTotal (db : DB) (sid : String) (v : Rat) : DB :=
  { db with stockIns := db.stockIns.map fun s =>
      if s.id = sid then { s with total := v } else s }

namespace StockInRepositoryImpl

/-- `GetStockInItems`: surviving items of one stock-in. -/
def GetStockInItems (db : DB) (sid : String) : List StockInItem :=
  survivingStockInItems db.stockInItems sid

/-- `StockInRepositoryImpl.GetByID`: a missing (or soft-deleted) header row is
pgx.ErrNoRows, translated to `nil, nil` — here `.ok none`.  The supplier
lookup cannot fail for a missing supplier (SupplierRepositoryImpl.GetByID
returns `nil, nil` there), so it is not modelled. -/
def GetByID (db : DB) (id : String) : Except String (Option StockIn) :=
  match db.stockIns.find? fun s => s.id = id ∧ s.deletedAt = false with
  | none => .ok none
  | some s => .ok (some { s with items := GetStockInItems db id })

/-- The body of the item-insertion loop of `StockInRepositoryImpl.Create`:
set the parent id, INSERT the row (primary-key and product foreign-key
checks can abort the surrounding transaction), then bump the product stock
by the item quantity. -/
def insertStockInItem (sid : String) (db : DB) (item : StockInItem) : Except String DB := do
  let item := { item with stockInID := sid }
  if db.stockInItems.any fun it => it.id = item.id then
    throw "failed to insert stock-in item" else
  if db.products.any fun p => p.id = item.productID then
    let db := { db with stockInItems := db.stockInItems ++
        [{ item with deletedAt := false }] }
    pure (updateProductStock db item.productID item.quantity)
  else
    throw "failed to insert stock-in item"

/-- `StockInRepositoryImpl.Create`: insert the header as given (the caller
supplied `total` is persisted untouched), run the item-insertion loop
(which bumps product stock as each item is persisted), then update supplier
rollups.  Everything inside one transaction. -/
def Create (db : DB) (stockIn : StockIn) : Except String DB := do
  if db.stockIns.any fun s => s.id = stockIn.id then
    throw "failed to insert stock-in" else
  let db := { db with stockIns := db.stockIns ++
      [{ stockIn with items := [], deletedAt := false }] }
  let db ← stockIn.items.foldlM (insertStockInItem stockIn.id) db
  match stockIn.supplierID with
  | none => pure db
  | some sid => pure { db with suppliers := db.suppliers.map fun s =>
      if s.id = sid then
        { s with totalPurchases := s.totalPurchases + 1,
                 totalSpent := s.totalSpent + stockIn.total }
      else s }

/-- `StockInRepositoryImpl.Delete`: the revert query
`SELECT product_id, quantity FROM stock_in_items WHERE stock_in_id = $1`
carries NO `deleted_at IS NULL` filter, so already-soft-deleted items are
reverted again; then items and header are soft-deleted. -/
def Delete (db : DB) (id : String) : Except String DB :=
  let rows := db.stockInItems.filter fun it => it.stockInID = id
  let db := rows.foldl (fun (db : DB) (it : StockInItem) =>
      updateProductStock db it.productID (-it.quantity)) db
  let db : DB := { db with stockInItems := db.stockInItems.map fun it =>
      if it.stockInID = id then { it with deletedAt := true } else it }
  .ok { db with stockIns := db.stockIns.map fun s =>
      if s.id = id then { s with deletedAt := true } else s }

/-- `StockInRepositoryImpl.AddStockInItem`: insert the item, bump the stock,
then recompute the parent total by the fresh `SUM(subtotal)` aggregate
(no COALESCE here; `total` is NOT NULL so a NULL sum would abort). -/
def AddStockInItem (db : DB) (item : StockInItem) : Except String DB := do
  if db.stockInItems.any fun it => it.id = item.id then
    throw "failed to insert stock-in item" else
  if db.stockIns.any fun s => s.id = item.stockInID then
    if db.products.any fun p => p.id = item.productID then
      let db := { db with stockInItems := db.stockInItems ++
          [{ item with deletedAt := false }] }
      let db := updateProductStock db item.productID item.quantity
      match sqlSumStockIn db.stockInItems item.stockInID with
      | none => throw "failed to update stock-in total"
      | some v => pure (setStockInTotal db item.stockInID v)
    else throw "failed to insert stock-in item"
  else throw "failed to insert stock-in item"

/-- `StockInRepositoryImpl.UpdateStockInItem`: read the original quantity
(no deleted filter), update the row fields (the row keeps its stock_in_id),
apply only the quantity difference to the stock register, then recompute the
total of the stock-in NAMED IN THE PAYLOAD by the fresh aggregate. -/
def UpdateStockInItem (db : DB) (item : StockInItem) : Except String DB := do
  match db.stockInItems.find? fun it => it.id = item.id with
  | none => throw "failed to get original quantity"
  | some orig =>
    let quantityDiff := item.quantity - orig.quantity
    let db := { db with stockInItems := db.stockInItems.map fun it =>
        if it.id = item.id then
          { it with productID := item.productID, productName := item.productName,
                    quantity := item.quantity, unitCost := item.unitCost,
                    tax := item.tax, discount := item.discount,
                    subtotal := item.subtotal }
        else it }
    let db := if quantityDiff ≠ 0
      then updateProductStock db item.productID quantityDiff else db
    match sqlSumStockIn db.stockInItems item.stockInID with
    | none => throw "failed to update stock-in total"
    | some v => pure (setStockInTotal db item.stockInID v)

/-- `StockInRepositoryImpl.DeleteStockInItem`: the row is fetched with NO
`deleted_at IS NULL` filter, soft-deleted (again, if need be), the stock
reverted by its quantity, and the parent total recomputed with
`COALESCE(SUM(subtotal), 0)` over surviving items. -/
def DeleteStockInItem (db : DB) (id : String) : Except String DB := do
  match db.stockInItems.find? fun it => it.id = id with
  | none => throw "failed to get item details"
  | some item =>
    let db := { db with stockInItems := db.stockInItems.map fun it =>
        if it.id = id then { it with deletedAt := true } else it }
    let db := updateProductStock db item.productID (-item.quantity)
    pure (setStockInTotal db item.stockInID (stockInTotalOf db.stockInItems item.stockInID))

end StockInRepositoryImpl

/-- Rows of `reject_items` WHERE `reject_id = rid AND deleted_at IS NULL`. -/
def survivingRejectItems (items : List RejectItem) (rid : String) : List RejectItem :=
  items.filter fun it => it.rejectID = rid ∧ it.deletedAt = false

/-- `COALESCE(SUM(subtotal), 0)` over the surviving items of one reject:
the fresh recomputation of a reject total. -/
def rejectTotalOf (items : List RejectItem) (rid : String) : Rat :=
  ((survivingRejectItems items rid).map RejectItem.subtotal).sum

/-- The trigger function update_product_quantity_after_reject (db/schema.sql):
AFTER UPDATE ON rejects, when the row transitions into status completed it
decrements the stock of every product referenced by a surviving item of the
reject by the TOTAL `SUM(quantity)` of all surviving items (the subquery is
not correlated per product). -/
def updateProductQuantityAfterReject (oldStatus newStatus : String) (rid : String)
    (db : DB) : DB :=
  if newStatus = "completed" ∧ oldStatus ≠ "completed" then
    let rows := survivingRejectItems db.rejectItems rid
    let qtySum : Int := (rows.map RejectItem.quantity).sum
    let pids := rows.map RejectItem.productID
    { db with products := db.products.map fun p =>
        if pids.contains p.id then { p with stock := p.stock - qtySum } else p }
  else db

/-- An `UPDATE rejects ... WHERE id = rid` statement that does not touch
`status`: the row fields are rewritten by `f`, then the AFTER UPDATE trigger
fires once per updated row with OLD.status = NEW.status. -/
def updateRejectRowsNoStatus (db : DB) (rid : String) (f : Reject → Reject) : DB :=
  let statuses := (db.rejects.filter fun r => r.id = rid).map Reject.status
  let db : DB := { db with rejects := db.rejects.map fun r =>
      if r.id = rid then
        let r' := f r
        { r' with status := r.status }
      else r }
  statuses.foldl (fun d st => updateProductQuantityAfterReject st st rid d) db

/-- `UPDATE rejects SET total = v WHERE id = rid` (trigger fires, guard false). -/
def setRejectTotal (db : DB) (rid : String) (v : Rat) : DB :=
  updateRejectRowsNoStatus db rid fun r => { r with total := v }

/-- The trigger function update_product_quantity_after_sale (db/schema.sql):
AFTER UPDATE ON sales, on a transition into status completed.  Its body
writes `products.quantity`, a column the products table does not define
(products has only `stock`), so if the guard ever held the UPDATE inside the
trigger would fail and abort the surrounding transaction. -/
def updateProductQuantityAfterSale (oldStatus newStatus : String) : Except String Unit :=
  if newStatus = "completed" ∧ oldStatus ≠ "completed" then
    .error "column quantity of relation products does not exist"
  else .ok ()

namespace RejectRepositoryImpl

/-- `RejectRepositoryImpl.GetByID`: unlike the stock-in and sale
repositories, a missing (or soft-deleted) reject is an ERROR
(`errors.New("reject not found")`), not a nil result. -/
def GetByID (db : DB) (id : String) : Except String Reject :=
  match db.rejects.find? fun r => r.id = id ∧ r.deletedAt = false with
  | none => .error "reject not found"
  | some r => .ok { r with items := survivingRejectItems db.rejectItems id }

/-- The body of the item-insertion loop of `RejectRepositoryImpl.Create`:
set the parent id, then INSERT the row (primary-key and product
foreign-key checks can abort the surrounding transaction). -/
def insertRejectItem (rid : String) (db : DB) (item : RejectItem) : Except String DB := do
  let item := { item with rejectID := rid }
  if db.rejectItems.any fun it => it.id = item.id then
    throw "failed to insert reject item" else
  if db.products.any fun p => p.id = item.productID then
    pure { db with rejectItems := db.rejectItems ++
        [{ item with deletedAt := false }] }
  else throw "failed to insert reject item"

/-- `RejectRepositoryImpl.Create`: insert the header and every item (no stock
access anywhere); afterwards, if the caller total is 0 and there are items,
set `total` to the plain Go-loop sum of the payload item subtotals.  That
final UPDATE fires the reject trigger with an unchanged status. -/
def Create (db : DB) (reject : Reject) : Except String DB := do
  if db.rejects.any fun r => r.id = reject.id then
    throw "failed to insert reject" else
  let db : DB := { db with rejects := db.rejects ++
      [{ reject with items := [], deletedAt := false }] }
  let db ← reject.items.foldlM (insertRejectItem reject.id) db
  if reject.total = 0 ∧ reject.items ≠ [] then
    let total := (reject.items.map RejectItem.subtotal).sum
    pure (setRejectTotal db reject.id total)
  else
    pure db

/-- `RejectRepositoryImpl.Delete`: soft-delete the items, then the header.
No stock access; the header UPDATE fires the trigger with unchanged status. -/
def Delete (db : DB) (id : String) : Except String DB :=
  let db : DB := { db with rejectItems := db.rejectItems.map fun it =>
      if it.rejectID = id then { it with deletedAt := true } else it }
  .ok (updateRejectRowsNoStatus db id fun r => { r with deletedAt := true })

/-- `RejectRepositoryImpl.AddRejectItem`: insert the item, then recompute the
named reject total with the fresh `COALESCE(SUM(subtotal), 0)` aggregate. -/
def AddRejectItem (db : DB) (item : RejectItem) : Except String DB := do
  if db.rejectItems.any fun it => it.id = item.id then
    throw "failed to insert reject item" else
  if db.rejects.any fun r => r.id = item.rejectID then
    if db.products.any fun p => p.id = item.productID then
      let db : DB := { db with rejectItems := db.rejectItems ++
          [{ item with deletedAt := false }] }
      pure (setRejectTotal db item.rejectID (rejectTotalOf db.rejectItems item.rejectID))
    else throw "failed to insert reject item"
  else throw "failed to insert reject item"

/-- `RejectRepositoryImpl.UpdateRejectItem`: update the row WHERE
`id = $7 AND deleted_at IS NULL` (zero matched rows is not an error), then
recompute the total of the reject NAMED IN THE PAYLOAD by the fresh
aggregate. -/
def UpdateRejectItem (db : DB) (item : RejectItem) : Except String DB :=
  let db : DB := { db with rejectItems := db.rejectItems.map fun it =>
      if it.id = item.id ∧ it.deletedAt = false then
        { it with productID := item.productID, productName := item.productName,
                  quantity := item.quantity, unitCost := item.unitCost,
                  subtotal := item.subtotal }
      else it }
  .ok (setRejectTotal db item.rejectID (rejectTotalOf db.rejectItems item.rejectID))

/-- `RejectRepositoryImpl.DeleteRejectItem`: the parent id is fetched WHERE
`id = $1 AND deleted_at IS NULL` — a second delete of the same item finds no
row and errors out with no effect.  No stock access.  The surviving total is
then recomputed by the fresh aggregate. -/
def DeleteRejectItem (db : DB) (id : String) : Except String DB := do
  match db.rejectItems.find? fun it => it.id = id ∧ it.deletedAt = false with
  | none => throw "no rows in result set"
  | some row =>
    let db : DB := { db with rejectItems := db.rejectItems.map fun it =>
        if it.id = id then { it with deletedAt := true } else it }
    pure (setRejectTotal db row.rejectID (rejectTotalOf db.rejectItems row.rejectID))

end RejectRepositoryImpl

namespace SaleRepositoryImpl

/-- `SaleRepositoryImpl.GetByID`: a missing (or soft-deleted) sale is
pgx.ErrNoRows, translated to `nil, nil` — here `.ok none`. -/
def GetByID (db : DB) (id : String) : Except String (Option Sale) :=
  match db.sales.find? fun s => s.id = id ∧ s.deletedAt = false with
  | none => .ok none
  | some s =>
    let items := db.saleItems.filter fun it => it.saleID = id ∧ it.deletedAt = false
    .ok (some { s with items := items })

/-- `SaleRepositoryImpl.Create`: inserts ONLY the sale header and the customer
rollup.  The payload items are never written to `sale_items`, and no product
stock is touched (the sale trigger is AFTER UPDATE, so an INSERT cannot fire
it). -/
def Create (db : DB) (sale : Sale) : Except String DB := do
  if db.sales.any fun s => s.id = sale.id then
    throw "failed to insert sale" else
  let db : DB := { db with sales := db.sales ++
      [{ sale with items := [], deletedAt := false }] }
  match sale.customerID with
  | none => pure db
  | some cid => pure { db with customers := db.customers.map fun c =>
      if c.id = cid then
        { c with totalOrders := c.totalOrders + 1,
                 totalSpent := c.totalSpent + sale.total }
      else c }

/-- `SaleRepositoryImpl.Delete`: a single soft-delete UPDATE on the header.
No item soft-delete, no stock reversal.  The sale trigger fires per updated
row with an unchanged status, so its (broken) body is not reached. -/
def Delete (db : DB) (id : String) : Except String DB := do
  let statuses := (db.sales.filter fun s => s.id = id).map Sale.status
  let _ ← statuses.mapM fun st => updateProductQuantityAfterSale st st
  pure { db with sales := db.sales.map fun s =>
      if s.id = id then { s with deletedAt := true } else s }

end SaleRepositoryImpl

namespace ProductRepositoryImpl

/-- `ProductRepositoryImpl.GetByID`: a missing (or soft-deleted) product is
the error `"product not found"`; this repository never returns nil, nil. -/
def GetByID (db : DB) (id : String) : Except String Product :=
  match db.products.find? fun p => p.id = id ∧ p.deletedAt = false with
  | none => .error "product not found"
  | some p => .ok p

end ProductRepositoryImpl

namespace CustomerRepositoryImpl

/-- `CustomerRepositoryImpl.GetByID`: `nil, nil` when there is no surviving row. -/
def GetByID (db : DB) (id : String) : Except String (Option Customer) :=
  .ok (db.customers.find? fun c => c.id = id ∧ c.deletedAt = false)

end CustomerRepositoryImpl

namespace SupplierRepositoryImpl

/-- `SupplierRepositoryImpl.GetByID`: `nil, nil` when there is no surviving row. -/
def GetByID (db : DB) (id : String) : Except String (Option Supplier) :=
  .ok (db.suppliers.find? fun s => s.id = id ∧ s.deletedAt = false)

end SupplierRepositoryImpl

namespace Models

/-- models.SaleItem.CalculateSubtotal: `(unit_price * quantity) + tax - discount`. -/
def SaleItem.CalculateSubtotal (i : SaleItem) : SaleItem :=
  { i with subtotal := i.unitPrice * (i.quantity : Rat) + i.tax - i.discount }

/-- models.Sale.CalculateTotals.  The Go loop ranges over COPIES of the
items (`for _, item := range s.Items`), so the stored item subtotals are NOT
updated; only the freshly recomputed values are summed into `total`. -/
def Sale.CalculateTotals (s : Sale) : Sale :=
  let subtotal := (s.items.map fun it =>
    it.unitPrice * (it.quantity : Rat) + it.tax - it.discount).sum
  { s with total := subtotal, balance := subtotal - s.paid }

/-- models.Sale.Validate: at least one item. -/
def Sale.Validate (s : Sale) : Option String :=
  if s.items = [] then some "sale must have at least one item" else none

end Models

/-- The outcome of an HTTP handler: the (possibly updated) database and the
error message passed to respondWithError, if the request failed. -/
abbrev HandlerResult := DB × Option String

namespace SaleHandler

/-- `SaleHandler.CreateSale`: validate, check the customer, compute totals
when the caller total is 0, and call SaleRepositoryImpl.Create (which
persists only the header). -/
def CreateSale (db : DB) (sale : Sale) : HandlerResult :=
  match Models.Sale.Validate sale with
  | some msg => (db, some msg)
  | none =>
    let customerMissing : Bool :=
      match sale.customerID with
      | some cid => decide (cid ≠ "" ∧ (CustomerRepositoryImpl.GetByID db cid).toOption.join = none)
      | none => false
    if customerMissing then (db, some "Customer not found")
    else
      let sale := if sale.total = 0 then Models.Sale.CalculateTotals sale else sale
      match SaleRepositoryImpl.Create db sale with
      | .error e => (db, some e)
      | .ok db1 => (db1, none)

end SaleHandler

namespace StockInHandler

/-- The per-item validation loop of `StockInHandler.CreateStockIn`: product id
and quantity checks, product lookup, default product name, and
`subtotal = unit_cost * quantity` when the caller left subtotal at 0. -/
def validateStockInItems (db : DB) : List StockInItem → Except String (List StockInItem)
  | [] => .ok []
  | item :: rest =>
    if item.productID = "" then .error "Product ID is required for all items" else
    if item.quantity ≤ 0 then .error "Quantity must be greater than zero" else
    match ProductRepositoryImpl.GetByID db item.productID with
    | .error e => .error ("Failed to get product: " ++ e)
    | .ok product =>
      let item := if item.productName = "" then
        { item with productName := product.name } else item
      let item := if item.subtotal = 0 then
        { item with subtotal := item.unitCost * (item.quantity : Rat) } else item
      match validateStockInItems db rest with
      | .error e => .error e
      | .ok rest1 => .ok (item :: rest1)

/-- `StockInHandler.CreateStockIn`: reference and supplier checks, the item
validation loop, then StockInRepositoryImpl.Create.  The header total is
never recomputed from the items here. -/
def CreateStockIn (db : DB) (stockIn : StockIn) : HandlerResult :=
  if stockIn.referenceNo = "" then (db, some "Reference number is required")
  else
    let supplierMissing : Bool :=
      match stockIn.supplierID with
      | some sid => decide ((SupplierRepositoryImpl.GetByID db sid).toOption.join = none)
      | none => false
    if supplierMissing then (db, some "Supplier not found")
    else
      match validateStockInItems db stockIn.items with
      | .error msg => (db, some msg)
      | .ok items =>
        match StockInRepositoryImpl.Create db { stockIn with items := items } with
        | .error e => (db, some ("Failed to create stock-in: " ++ e))
        | .ok db1 => (db1, none)

/-- `StockInHandler.UpdateStockInItem`: sets the ids from the URL, validates,
recomputes `subtotal = unit_cost * quantity` ONLY when the caller supplied
subtotal is 0 (a non-zero caller subtotal is persisted as given), then calls
StockInRepositoryImpl.UpdateStockInItem.  No product lookup happens here. -/
def UpdateStockInItem (db : DB) (stockInID itemID : String) (item : StockInItem) :
    HandlerResult :=
  let item := { item with id := itemID, stockInID := stockInID }
  if item.productID = "" then (db, some "Product ID is required") else
  if item.quantity ≤ 0 then (db, some "Quantity must be greater than zero") else
  let item := if item.subtotal = 0 then
    { item with subtotal := item.unitCost * (item.quantity : Rat) } else item
  match StockInRepositoryImpl.UpdateStockInItem db item with
  | .error e => (db, some ("Failed to update stock-in item: " ++ e))
  | .ok db1 => (db1, none)

/-- `StockInHandler.AddStockInItem`: check the stock-in exists, set the
parent id from the URL, validate the item, default the product name and —
only when the caller-supplied subtotal is 0 — derive
`subtotal = unit_cost * quantity`, then call
StockInRepositoryImpl.AddStockInItem. -/
def AddStockInItem (db : DB) (stockInID : String) (item : StockInItem) :
    HandlerResult :=
  match StockInRepositoryImpl.GetByID db stockInID with
  | .error e => (db, some ("Failed to get stock-in: " ++ e))
  | .ok none => (db, some "Stock-in not found")
  | .ok (some _) =>
    let item := { item with stockInID := stockInID }
    if item.productID = "" then (db, some "Product ID is required") else
    if item.quantity ≤ 0 then (db, some "Quantity must be greater than zero") else
    match ProductRepositoryImpl.GetByID db item.productID with
    | .error e => (db, some ("Failed to get product: " ++ e))
    | .ok product =>
      let item := if item.productName = "" then
        { item with productName := product.name } else item
      let item := if item.subtotal = 0 then
        { item with subtotal := item.unitCost * (item.quantity : Rat) } else item
      match StockInRepositoryImpl.AddStockInItem db item with
      | .error e => (db, some ("Failed to add stock-in item: " ++ e))
      | .ok db1 => (db1, none)

end StockInHandler

namespace RejectHandler

/-- The per-item validation loop of `RejectHandler.CreateReject`: product id
and quantity checks, product lookup, default product name,
`subtotal = unit_cost * quantity` when the caller left subtotal at 0, and —
only when the reject is being created as completed — the upfront stock
sufficiency check `product.stock < quantity`, failing with the message
naming the offending product. -/
def validateRejectItems (db : DB) (status : String) :
    List RejectItem → Except String (List RejectItem)
  | [] => .ok []
  | item :: rest =>
    if item.productID = "" then .error "Product ID is required for all items" else
    if item.quantity ≤ 0 then .error "Quantity must be greater than zero" else
    match ProductRepositoryImpl.GetByID db item.productID with
    | .error e => .error ("Failed to get product: " ++ e)
    | .ok product =>
      let item := if item.productName = "" then
        { item with productName := product.name } else item
      let item := if item.subtotal = 0 then
        { item with subtotal := item.unitCost * (item.quantity : Rat) } else item
      if status = RejectStatusCompleted ∧ product.stock < item.quantity then
        .error ("Insufficient stock for product: " ++ product.name)
      else
        match validateRejectItems db status rest with
        | .error e => .error e
        | .ok rest1 => .ok (item :: rest1)

/-- `RejectHandler.CreateReject`: reference check, the item validation loop
(including the completed-status stock sufficiency check), then
RejectRepositoryImpl.Create.  Every failure happens before any write. -/
def CreateReject (db : DB) (reject : Reject) : HandlerResult :=
  if reject.referenceNo = "" then (db, some "Reference number is required")
  else
    match validateRejectItems db reject.status reject.items with
    | .error msg => (db, some msg)
    | .ok items =>
      match RejectRepositoryImpl.Create db { reject with items := items } with
      | .error e => (db, some ("Failed to create reject: " ++ e))
      | .ok db1 => (db1, none)

/-- `RejectHandler.DeleteReject`: a completed reject may not be deleted; the
check happens after the read and before the repository delete. -/
def DeleteReject (db : DB) (id : String) : HandlerResult :=
  match RejectRepositoryImpl.GetByID db id with
  | .error e => (db, some ("Failed to get reject: " ++ e))
  | .ok reject =>
    if reject.status = RejectStatusCompleted then
      (db, some "Cannot delete a completed reject")
    else
      match RejectRepositoryImpl.Delete db id with
      | .error e => (db, some ("Failed to delete reject: " ++ e))
      | .ok db1 => (db1, none)

/-- `RejectHandler.AddRejectItem`: reads the reject, rejects modification of a
completed or cancelled reject before anything else, validates the item,
defaults name and subtotal, then calls RejectRepositoryImpl.AddRejectItem. -/
def AddRejectItem (db : DB) (rejectID : String) (item : RejectItem) : HandlerResult :=
  match RejectRepositoryImpl.GetByID db rejectID with
  | .error e => (db, some ("Failed to get reject: " ++ e))
  | .ok reject =>
    if reject.status = RejectStatusCompleted ∨ reject.status = RejectStatusCancelled then
      (db, some "Cannot modify a completed or cancelled reject")
    else
      let item := { item with rejectID := rejectID }
      if item.productID = "" then (db, some "Product ID is required") else
      if item.quantity ≤ 0 then (db, some "Quantity must be greater than zero") else
      match ProductRepositoryImpl.GetByID db item.productID with
      | .error e => (db, some ("Failed to get product: " ++ e))
      | .ok product =>
        let item := if item.productName = "" then
          { item with productName := product.name } else item
        let item := if item.subtotal = 0 then
          { item with subtotal := item.unitCost * (item.quantity : Rat) } else item
        match RejectRepositoryImpl.AddRejectItem db item with
        | .error e => (db, some ("Failed to add reject item: " ++ e))
        | .ok db1 => (db1, none)

/-- `RejectHandler.UpdateRejectItem`: locked-status check first, then ids from
the URL, validation, the conditional subtotal recomputation, and
RejectRepositoryImpl.UpdateRejectItem (no product lookup here). -/
def UpdateRejectItem (db : DB) (rejectID itemID : String) (item : RejectItem) :
    HandlerResult :=
  match RejectRepositoryImpl.GetByID db rejectID with
  | .error e => (db, some ("Failed to get reject: " ++ e))
  | .ok reject =>
    if reject.status = RejectStatusCompleted ∨ reject.status = RejectStatusCancelled then
      (db, some "Cannot modify a completed or cancelled reject")
    else
      let item := { item with id := itemID, rejectID := rejectID }
      if item.productID = "" then (db, some "Product ID is required") else
      if item.quantity ≤ 0 then (db, some "Quantity must be greater than zero") else
      let item := if item.subtotal = 0 then
        { item with subtotal := item.unitCost * (item.quantity : Rat) } else item
      match RejectRepositoryImpl.UpdateRejectItem db item with
      | .error e => (db, some ("Failed to update reject item: " ++ e))
      | .ok db1 => (db1, none)

/-- `RejectHandler.DeleteRejectItem`: locked-status check first, then
RejectRepositoryImpl.DeleteRejectItem. -/
def DeleteRejectItem (db : DB) (rejectID itemID : String) : HandlerResult :=
  match RejectRepositoryImpl.GetByID db rejectID with
  | .error e => (db, some ("Failed to get reject: " ++ e))
  | .ok reject =>
    if reject.status = RejectStatusCompleted ∨ reject.status = RejectStatusCancelled then
      (db, some "Cannot modify a completed or cancelled reject")
    else
      match RejectRepositoryImpl.DeleteRejectItem db itemID with
      | .error e => (db, some ("Failed to delete reject item: " ++ e))
      | .ok db1 => (db1, none)

end RejectHandler

/-! Shared lemmas about the embedding. -/

/-- The reject trigger does nothing when the status did not change. -/
theorem updateProductQuantityAfterReject_same (s rid : String) (db : DB) :
    updateProductQuantityAfterReject s s rid db = db := by
  unfold updateProductQuantityAfterReject
  rw [if_neg]
  rintro ⟨h1, h2⟩
  exact h2 h1

/-- Folding the reject trigger over rows whose status did not change is the
identity. -/
theorem foldl_reject_trigger_same (l : List String) (rid : String) (db : DB) :
    l.foldl (fun d st => updateProductQuantityAfterReject st st rid d) db = db := by
  induction l generalizing db with
  | nil => rfl
  | cons a l ih => rw [List.foldl_cons, updateProductQuantityAfterReject_same, ih]

/-- A status-preserving UPDATE on rejects is just the row rewrite. -/
theorem updateRejectRowsNoStatus_eq (db : DB) (rid : String) (f : Reject → Reject) :
    updateRejectRowsNoStatus db rid f =
      { db with rejects := db.rejects.map fun r =>
          if r.id = rid then
            let r' := f r
            { r' with status := r.status }
          else r } := by
  unfold updateRejectRowsNoStatus
  exact foldl_reject_trigger_same _ _ _

/-- The sale trigger does nothing when the status did not change. -/
theorem updateProductQuantityAfterSale_same (s : String) :
    updateProductQuantityAfterSale s s = .ok () := by
  unfold updateProductQuantityAfterSale
  rw [if_neg]
  rintro ⟨h1, h2⟩
  exact h2 h1

/-- `setStockInTotal` leaves the `stock_in_items` table unchanged. -/
theorem setStockInTotal_stockInItems (db : DB) (sid : String) (v : Rat) :
    (setStockInTotal db sid v).stockInItems = db.stockInItems := rfl

/-- `setStockInTotal` leaves the `products` table unchanged. -/
theorem setStockInTotal_products (db : DB) (sid : String) (v : Rat) :
    (setStockInTotal db sid v).products = db.products := rfl

/-- Every `stock_ins` row matching the WHERE clause of `setStockInTotal`
carries the written total afterwards. -/
theorem setStockInTotal_total {db : DB} {sid : String} {v : Rat} {t : StockIn}
    (ht : t ∈ (setStockInTotal db sid v).stockIns) (hid : t.id = sid) :
    t.total = v := by
  simp only [setStockInTotal, List.mem_map] at ht
  obtain ⟨r, hr, hrt⟩ := ht
  by_cases h : r.id = sid
  · rw [if_pos h] at hrt
    rw [← hrt]
  · rw [if_neg h] at hrt
    rw [← hrt] at hid
    exact absurd hid h

/-- `setRejectTotal` leaves the `reject_items` table unchanged. -/
theorem setRejectTotal_rejectItems (db : DB) (rid : String) (v : Rat) :
    (setRejectTotal db rid v).rejectItems = db.rejectItems := by
  rw [setRejectTotal, updateRejectRowsNoStatus_eq]

/-- `setRejectTotal` leaves the `products` table unchanged. -/
theorem setRejectTotal_products (db : DB) (rid : String) (v : Rat) :
    (setRejectTotal db rid v).products = db.products := by
  rw [setRejectTotal, updateRejectRowsNoStatus_eq]

/-- Every `rejects` row matching the WHERE clause of `setRejectTotal`
carries the written total afterwards. -/
theorem setRejectTotal_total {db : DB} {rid : String} {v : Rat} {t : Reject}
    (ht : t ∈ (setRejectTotal db rid v).rejects) (hid : t.id = rid) :
    t.total = v := by
  rw [setRejectTotal, updateRejectRowsNoStatus_eq] at ht
  simp only [List.mem_map] at ht
  obtain ⟨r, hr, hrt⟩ := ht
  by_cases h : r.id = rid
  · rw [if_pos h] at hrt
    rw [← hrt]
  · rw [if_neg h] at hrt
    rw [← hrt] at hid
    exact absurd hid h

/-- A SQL `SUM` that returned a row agrees with its COALESCE variant. -/
theorem sqlSumStockIn_eq_totalOf {items : List StockInItem} {sid : String} {v : Rat}
    (h : sqlSumStockIn items sid = some v) : stockInTotalOf items sid = v := by
  unfold sqlSumStockIn at h
  unfold stockInTotalOf
  cases hrows : survivingStockInItems items sid with
  | nil => rw [hrows] at h; exact absurd h (by simp)
  | cons a l =>
    rw [hrows] at h
    simp only [Option.some.injEq] at h
    exact h

/-- `updateProductStock` leaves the `stock_in_items` table unchanged. -/
theorem updateProductStock_stockInItems (db : DB) (pid : String) (d : Int) :
    (updateProductStock db pid d).stockInItems = db.stockInItems := rfl

/-- `updateProductStock` leaves the `stock_ins` table unchanged. -/
theorem updateProductStock_stockIns (db : DB) (pid : String) (d : Int) :
    (updateProductStock db pid d).stockIns = db.stockIns := rfl

/-! Claim C10. -/

/-- Claim C10: missing-entity behaviour differs per family at the repository
interface.  For an id matching no non-deleted row, StockInRepository.GetByID
and SaleRepository.GetByID return a nil transaction together with a nil
error (`.ok none`), whereas RejectRepository.GetByID returns a non-nil error
(`.error "reject not found"`); a missing stock-in or sale is signalled by a
nil result, never by an error. -/
theorem missing_entity_per_family (db : DB) (id : String)
    (hsi : ∀ s ∈ db.stockIns, s.id = id → s.deletedAt = true)
    (hsa : ∀ s ∈ db.sales, s.id = id → s.deletedAt = true)
    (hrj : ∀ r ∈ db.rejects, r.id = id → r.deletedAt = true) :
    StockInRepositoryImpl.GetByID db id = .ok none ∧
    SaleRepositoryImpl.GetByID db id = .ok none ∧
    RejectRepositoryImpl.GetByID db id = .error "reject not found" := by
  have h1 : db.stockIns.find? (fun s => s.id = id ∧ s.deletedAt = false) = none := by
    rw [List.find?_eq_none]
    intro s hs
    simp only [decide_eq_true_eq]
    rintro ⟨ha, hb⟩
    rw [hsi s hs ha] at hb
    exact Bool.noConfusion hb
  have h2 : db.sales.find? (fun s => s.id = id ∧ s.deletedAt = false) = none := by
    rw [List.find?_eq_none]
    intro s hs
    simp only [decide_eq_true_eq]
    rintro ⟨ha, hb⟩
    rw [hsa s hs ha] at hb
    exact Bool.noConfusion hb
  have h3 : db.rejects.find? (fun r => r.id = id ∧ r.deletedAt = false) = none := by
    rw [List.find?_eq_none]
    intro r hr
    simp only [decide_eq_true_eq]
    rintro ⟨ha, hb⟩
    rw [hrj r hr ha] at hb
    exact Bool.noConfusion hb
  refine ⟨?_, ?_, ?_⟩
  · unfold StockInRepositoryImpl.GetByID
    rw [h1]
  · unfold SaleRepositoryImpl.GetByID
    rw [h2]
  · unfold RejectRepositoryImpl.GetByID
    rw [h3]

/-- The empty store, used as a concrete input. -/
def dbEmpty : DB := ⟨[], [], [], [], [], [], [], [], []⟩

/-- Witness for C10 at the empty store and the id "missing". -/
theorem missing_entity_per_family_witness :
    StockInRepositoryImpl.GetByID dbEmpty "missing" = .ok none ∧
    SaleRepositoryImpl.GetByID dbEmpty "missing" = .ok none ∧
    RejectRepositoryImpl.GetByID dbEmpty "missing" = .error "reject not found" :=
  missing_entity_per_family dbEmpty "missing"
    (by intro s hs; exact absurd hs (List.not_mem_nil s))
    (by intro s hs; exact absurd hs (List.not_mem_nil s))
    (by intro r hr; exact absurd hr (List.not_mem_nil r))

/-! Claim C7. -/

/-- Claim C7: deleting a completed reject fails with a locked-transaction
error rather than silently no-opping, and adding, updating, or deleting an
item of a completed or cancelled reject is rejected before any side effect
is attempted; in every failing case the handler returns the database
unchanged, so the reject header, its items, and all product stocks are
untouched. -/
theorem reject_terminal_state_locked (db : DB) (id itemID : String) (r : Reject)
    (item : RejectItem)
    (hfound : RejectRepositoryImpl.GetByID db id = .ok r) :
    (r.status = RejectStatusCompleted →
      RejectHandler.DeleteReject db id = (db, some "Cannot delete a completed reject")) ∧
    (r.status = RejectStatusCompleted ∨ r.status = RejectStatusCancelled →
      RejectHandler.AddRejectItem db id item =
        (db, some "Cannot modify a completed or cancelled reject") ∧
      RejectHandler.UpdateRejectItem db id itemID item =
        (db, some "Cannot modify a completed or cancelled reject") ∧
      RejectHandler.DeleteRejectItem db id itemID =
        (db, some "Cannot modify a completed or cancelled reject")) := by
  constructor
  · intro hst
    unfold RejectHandler.DeleteReject
    rw [hfound]
    simp only [hst, if_pos]
  · intro hst
    refine ⟨?_, ?_, ?_⟩
    · unfold RejectHandler.AddRejectItem
      rw [hfound]
      rcases hst with h | h <;> simp [h]
    · unfold RejectHandler.UpdateRejectItem
      rw [hfound]
      rcases hst with h | h <;> simp [h]
    · unfold RejectHandler.DeleteRejectItem
      rw [hfound]
      rcases hst with h | h <;> simp [h]

/-- A completed reject header and a store holding it. -/
def rLocked : Reject := ⟨"r9", "RR", "completed", 0, [], false⟩

/-- Store with one completed reject, used as a concrete input. -/
def dbLocked : DB := ⟨[], [], [], [], [], [], [], [rLocked], []⟩

/-- A reject item payload used as a concrete input. -/
def itemLocked : RejectItem := ⟨"x1", "", "p", "", 1, 1, 0, false⟩

/-- Witness for C7 at a store holding one completed reject. -/
theorem reject_terminal_state_locked_witness :
    RejectHandler.DeleteReject dbLocked "r9" =
      (dbLocked, some "Cannot delete a completed reject") ∧
    RejectHandler.AddRejectItem dbLocked "r9" itemLocked =
      (dbLocked, some "Cannot modify a completed or cancelled reject") ∧
    RejectHandler.UpdateRejectItem dbLocked "r9" "x1" itemLocked =
      (dbLocked, some "Cannot modify a completed or cancelled reject") ∧
    RejectHandler.DeleteRejectItem dbLocked "r9" "x1" =
      (dbLocked, some "Cannot modify a completed or cancelled reject") := by
  have h := reject_terminal_state_locked dbLocked "r9" "x1" rLocked itemLocked (by rfl)
  have h2 := h.2 (Or.inl (by rfl))
  exact ⟨h.1 (by rfl), h2.1, h2.2.1, h2.2.2⟩

/-! Claim C2. -/

/-- Rows of `reject_items` surviving for one reject, summed as the coalesced
aggregate sees them — alias used when stating totals. -/
def rejectSurvivingSubtotalSum (items : List RejectItem) (rid : String) : Rat :=
  rejectTotalOf items rid

/-- The six item-level mutations of the stock-in and reject repositories,
bundled so that one statement can range over all of them. -/
inductive ItemOp where
  | addStockInItem (item : StockInItem)
  | updateStockInItem (item : StockInItem)
  | deleteStockInItem (id : String)
  | addRejectItem (item : RejectItem)
  | updateRejectItem (item : RejectItem)
  | deleteRejectItem (id : String)

/-- Dispatch an `ItemOp` to the repository function it names. -/
def runItemOp : ItemOp → DB → Except String DB
  | .addStockInItem item, db => StockInRepositoryImpl.AddStockInItem db item
  | .updateStockInItem item, db => StockInRepositoryImpl.UpdateStockInItem db item
  | .deleteStockInItem id, db => StockInRepositoryImpl.DeleteStockInItem db id
  | .addRejectItem item, db => RejectRepositoryImpl.AddRejectItem db item
  | .updateRejectItem item, db => RejectRepositoryImpl.UpdateRejectItem db item
  | .deleteRejectItem id, db => RejectRepositoryImpl.DeleteRejectItem db id

/-- Whether the operation belongs to the stock-in family. -/
def ItemOp.isStockIn : ItemOp → Bool
  | .addStockInItem _ => true
  | .updateStockInItem _ => true
  | .deleteStockInItem _ => true
  | _ => false

/-- The id of the transaction whose total the operation recomputes: the
parent id named in the payload for add and update, and the parent id read
from the stored row for delete. -/
def ItemOp.target : ItemOp → DB → Option String
  | .addStockInItem item, _ => some item.stockInID
  | .updateStockInItem item, _ => some item.stockInID
  | .deleteStockInItem id, db =>
      (db.stockInItems.find? fun it => it.id = id).map StockInItem.stockInID
  | .addRejectItem item, _ => some item.rejectID
  | .updateRejectItem item, _ => some item.rejectID
  | .deleteRejectItem id, db =>
      (db.rejectItems.find? fun it => it.id = id ∧ it.deletedAt = false).map
        RejectItem.rejectID

/-- Claim C2: for every stock-in and every reject transaction, after any
committed add-item, update-item, or delete-item operation, the transaction
operated on stores a total equal to the fresh aggregate
`COALESCE(SUM(subtotal), 0)` over its current non-soft-deleted line items.
The statement quantifies over an arbitrary pre-state — in particular one
whose stored totals are arbitrary garbage — so the stored total provably
comes from the fresh aggregate recomputation over surviving items, never
from an incremental adjustment of the previous total. -/
theorem item_ops_total_consistency (op : ItemOp) (db db' : DB) (sid : String)
    (hok : runItemOp op db = .ok db') (htgt : ItemOp.target op db = some sid) :
    (op.isStockIn = true → ∀ t ∈ db'.stockIns, t.id = sid →
        t.total = stockInTotalOf db'.stockInItems sid) ∧
    (op.isStockIn = false → ∀ t ∈ db'.rejects, t.id = sid →
        t.total = rejectSurvivingSubtotalSum db'.rejectItems sid) := by
  cases op with
  | addStockInItem item =>
    simp only [ItemOp.target, Option.some.injEq] at htgt
    subst htgt
    simp only [runItemOp, StockInRepositoryImpl.AddStockInItem] at hok
    split at hok
    · exact absurd hok (by simp)
    split at hok
    · split at hok
      · split at hok
        · exact absurd hok (by simp)
        · rename_i v hsum
          simp only [pure, Except.pure, Except.ok.injEq] at hok
          subst hok
          refine ⟨?_, by intro h; exact absurd h (by simp [ItemOp.isStockIn])⟩
          intro _ t ht hid
          rw [setStockInTotal_total ht hid, setStockInTotal_stockInItems]
          exact (sqlSumStockIn_eq_totalOf hsum).symm
      · exact absurd hok (by simp)
    · exact absurd hok (by simp)
  | updateStockInItem item =>
    simp only [ItemOp.target, Option.some.injEq] at htgt
    subst htgt
    simp only [runItemOp, StockInRepositoryImpl.UpdateStockInItem] at hok
    split at hok
    · exact absurd hok (by simp)
    · rename_i orig hfind
      split at hok
      · exact absurd hok (by simp)
      · rename_i v hsum
        simp only [pure, Except.pure, Except.ok.injEq] at hok
        subst hok
        refine ⟨?_, by intro h; exact absurd h (by simp [ItemOp.isStockIn])⟩
        intro _ t ht hid
        rw [setStockInTotal_total ht hid, setStockInTotal_stockInItems]
        exact (sqlSumStockIn_eq_totalOf hsum).symm
  | deleteStockInItem iid =>
    simp only [runItemOp, StockInRepositoryImpl.DeleteStockInItem] at hok
    split at hok
    · exact absurd hok (by simp)
    · rename_i row hfind
      simp only [ItemOp.target, hfind, Option.map_some', Option.some.injEq] at htgt
      subst htgt
      simp only [pure, Except.pure, Except.ok.injEq] at hok
      subst hok
      refine ⟨?_, by intro h; exact absurd h (by simp [ItemOp.isStockIn])⟩
      intro _ t ht hid
      rw [setStockInTotal_total ht hid, setStockInTotal_stockInItems]
  | addRejectItem item =>
    simp only [ItemOp.target, Option.some.injEq] at htgt
    subst htgt
    simp only [runItemOp, RejectRepositoryImpl.AddRejectItem] at hok
    split at hok
    · exact absurd hok (by simp)
    split at hok
    · split at hok
      · simp only [pure, Except.pure, Except.ok.injEq] at hok
        subst hok
        refine ⟨by intro h; exact absurd h (by simp [ItemOp.isStockIn]), ?_⟩
        intro _ t ht hid
        rw [setRejectTotal_total ht hid, rejectSurvivingSubtotalSum,
          setRejectTotal_rejectItems]
      · exact absurd hok (by simp)
    · exact absurd hok (by simp)
  | updateRejectItem item =>
    simp only [ItemOp.target, Option.some.injEq] at htgt
    subst htgt
    simp only [runItemOp, RejectRepositoryImpl.UpdateRejectItem,
      Except.ok.injEq] at hok
    subst hok
    refine ⟨by intro h; exact absurd h (by simp [ItemOp.isStockIn]), ?_⟩
    intro _ t ht hid
    rw [setRejectTotal_total ht hid, rejectSurvivingSubtotalSum,
      setRejectTotal_rejectItems]
  | deleteRejectItem iid =>
    simp only [runItemOp, RejectRepositoryImpl.DeleteRejectItem] at hok
    split at hok
    · exact absurd hok (by simp)
    · rename_i row hfind
      simp only [ItemOp.target, hfind, Option.map_some', Option.some.injEq] at htgt
      subst htgt
      simp only [pure, Except.pure, Except.ok.injEq] at hok
      subst hok
      refine ⟨by intro h; exact absurd h (by simp [ItemOp.isStockIn]), ?_⟩
      intro _ t ht hid
      rw [setRejectTotal_total ht hid, rejectSurvivingSubtotalSum,
        setRejectTotal_rejectItems]

/-- A stock-in header with a garbage stored total, used as a concrete input. -/
def siW : StockIn := ⟨"si1", "R1", "draft", 77, 0, 0, none, [], false⟩

/-- A product row used as a concrete input. -/
def prW : Product := ⟨"p1", "Widget", 3, false⟩

/-- Store holding one stock-in and one product, used as a concrete input. -/
def dbW : DB := ⟨[prW], [], [], [siW], [], [], [], [], []⟩

/-- A stock-in item payload used as a concrete input. -/
def itW : StockInItem := ⟨"it1", "si1", "p1", "Widget", 2, 5, 0, 0, 10, false⟩

/-- The store after adding `itW`, used as a concrete input. -/
def dbW1 : DB := ((runItemOp (ItemOp.addStockInItem itW) dbW).toOption).getD dbEmpty

/-- Witness for C2: adding one concrete item to a stock-in whose stored
total was garbage (77) commits, and afterwards the stored total equals the
fresh aggregate over the surviving items. -/
theorem item_ops_total_consistency_witness :
    runItemOp (ItemOp.addStockInItem itW) dbW = .ok dbW1 ∧
    ItemOp.target (ItemOp.addStockInItem itW) dbW = some "si1" ∧
    ((ItemOp.addStockInItem itW).isStockIn = true → ∀ t ∈ dbW1.stockIns, t.id = "si1" →
        t.total = stockInTotalOf dbW1.stockInItems "si1") :=
  ⟨by rfl, by rfl,
    (item_ops_total_consistency (ItemOp.addStockInItem itW) dbW dbW1 "si1"
      (by rfl) (by rfl)).1⟩

/-! Claim C5. -/

/-- Inserting one reject item preserves the `products` and `rejects` tables. -/
theorem insertRejectItem_parts {rid : String} {db db' : DB} {item : RejectItem}
    (h : RejectRepositoryImpl.insertRejectItem rid db item = .ok db') :
    db'.products = db.products ∧ db'.rejects = db.rejects := by
  simp only [RejectRepositoryImpl.insertRejectItem] at h
  split at h
  · exact absurd h (by simp)
  split at h
  · simp only [pure, Except.pure, Except.ok.injEq] at h
    subst h
    exact ⟨rfl, rfl⟩
  · exact absurd h (by simp)

/-- The whole item-insertion loop of `RejectRepositoryImpl.Create` preserves
the `products` and `rejects` tables. -/
theorem foldlM_insertRejectItem_parts (items : List RejectItem) (rid : String)
    {db db' : DB}
    (h : items.foldlM (RejectRepositoryImpl.insertRejectItem rid) db = .ok db') :
    db'.products = db.products ∧ db'.rejects = db.rejects := by
  induction items generalizing db with
  | nil =>
    simp only [List.foldlM_nil, pure, Except.pure, Except.ok.injEq] at h
    subst h
    exact ⟨rfl, rfl⟩
  | cons a l ih =>
    rw [List.foldlM_cons] at h
    cases hins : RejectRepositoryImpl.insertRejectItem rid db a with
    | error e => rw [hins] at h; exact absurd h (by simp [Bind.bind, Except.bind])
    | ok mid =>
      rw [hins] at h
      simp only [Bind.bind, Except.bind] at h
      have h1 := insertRejectItem_parts hins
      have h2 := ih h
      exact ⟨h2.1.trans h1.1, h2.2.trans h1.2⟩

/-- `RejectRepositoryImpl.Create` never touches the `products` table. -/
theorem rejectCreate_products {db db' : DB} {reject : Reject}
    (h : RejectRepositoryImpl.Create db reject = .ok db') :
    db'.products = db.products := by
  simp only [RejectRepositoryImpl.Create] at h
  split at h
  · exact absurd h (by simp)
  · cases hfold : reject.items.foldlM
        (RejectRepositoryImpl.insertRejectItem reject.id)
        { db with rejects := db.rejects ++ [{ reject with items := [], deletedAt := false }] } with
    | error e => rw [hfold] at h; exact absurd h (by simp [Bind.bind, Except.bind])
    | ok mid =>
      rw [hfold] at h
      simp only [Bind.bind, Except.bind] at h
      have hmid : mid.products = db.products := (foldlM_insertRejectItem_parts _ _ hfold).1
      split at h
      · simp only [pure, Except.pure, Except.ok.injEq] at h
        subst h
        rw [setRejectTotal_products]
        exact hmid
      · simp only [pure, Except.pure, Except.ok.injEq] at h
        subst h
        exact hmid

/-- Claim C5 (amended) part one: whenever RejectHandler.CreateReject
succeeds, no product stock changes — creation applies no stock effect. -/
theorem createReject_products {db db' : DB} {reject : Reject}
    (h : RejectHandler.CreateReject db reject = (db', none)) :
    db'.products = db.products := by
  simp only [RejectHandler.CreateReject] at h
  split at h
  · exact absurd h (by simp)
  · split at h
    · exact absurd h (by simp)
    · split at h
      · exact absurd h (by simp)
      · rename_i db1 hcreate
        have h1 : db' = db1 := by
          have := congrArg Prod.fst h
          simpa using this.symm
        subst h1
        exact rejectCreate_products hcreate

/-- A product with stock 10, used as a concrete input. -/
def productC5 : Product := ⟨"q1", "Gadget", 10, false⟩

/-- Store holding only `productC5`, used as a concrete input. -/
def dbC5 : DB := ⟨[productC5], [], [], [], [], [], [], [], []⟩

/-- A COMPLETED reject payload with a single item of the given quantity
against `productC5`, used as a concrete input. -/
def rejectC5 (n : Int) : Reject :=
  ⟨"r1", "RJ1", "completed", 0, [⟨"ri1", "", "q1", "", n, 2, 0, false⟩], false⟩

/-- Claim C5 counterexample: creating a COMPLETED reject whose single item
quantity (10) exactly equals the current stock (10) succeeds, but the stock
afterwards is still 10, not 0.  The reject repository never touches stock
and the stock trigger on rejects fires only on a status-transition UPDATE,
which an insert-and-set-total creation never performs. -/
theorem reject_boundary_counterexample :
    (RejectHandler.CreateReject dbC5 (rejectC5 10)).2 = none ∧
    (RejectHandler.CreateReject dbC5 (rejectC5 10)).1.products.map Product.stock = [10] ∧
    ¬ (RejectHandler.CreateReject dbC5 (rejectC5 10)).1.products.map Product.stock = [0] := by
  refine ⟨by decide, by decide, by decide⟩

/-- Claim C5 (amended): creating a completed reject whose item quantity
exactly equals the current stock passes the sufficiency check (and, when it
commits, leaves every product stock unchanged rather than driving it to 0),
while the same creation with quantity exceeding the stock fails with
`Insufficient stock` naming the offending product, before any write: the
handler returns the database unchanged. -/
theorem reject_boundary_amended (db : DB) (reject : Reject) (item : RejectItem)
    (product : Product)
    (href : reject.referenceNo ≠ "")
    (hitems : reject.items = [item])
    (hpid : item.productID ≠ "")
    (hq : 0 < item.quantity)
    (hprod : ProductRepositoryImpl.GetByID db item.productID = .ok product)
    (hstatus : reject.status = RejectStatusCompleted) :
    (∀ db', RejectHandler.CreateReject db reject = (db', none) →
        db'.products = db.products) ∧
    (product.stock < item.quantity →
      RejectHandler.CreateReject db reject =
        (db, some ("Insufficient stock for product: " ++ product.name))) := by
  constructor
  · intro db' h
    exact createReject_products h
  · intro hover
    simp only [RejectHandler.CreateReject]
    rw [if_neg href]
    have hval : RejectHandler.validateRejectItems db reject.status reject.items =
        .error ("Insufficient stock for product: " ++ product.name) := by
      rw [hitems]
      simp only [RejectHandler.validateRejectItems]
      rw [if_neg hpid, if_neg (by omega), hprod]
      by_cases h1 : item.productName = "" <;> by_cases h2 : item.subtotal = 0 <;>
        simp [h1, h2, hstatus, hover]
    rw [hval]

/-- Witness for C5 at stock 10: quantity 10 (the boundary) commits with
stock untouched, and quantity 11 fails naming the product. -/
theorem reject_boundary_amended_witness :
    (∀ db', RejectHandler.CreateReject dbC5 (rejectC5 10) = (db', none) →
        db'.products = dbC5.products) ∧
    (RejectHandler.CreateReject dbC5 (rejectC5 11) =
      (dbC5, some ("Insufficient stock for product: " ++ productC5.name))) := by
  constructor
  · exact (reject_boundary_amended dbC5 (rejectC5 10)
      ⟨"ri1", "", "q1", "", 10, 2, 0, false⟩ productC5
      (by decide) (by decide) (by decide) (by decide) (by rfl) (by decide)).1
  · exact (reject_boundary_amended dbC5 (rejectC5 11)
      ⟨"ri1", "", "q1", "", 11, 2, 0, false⟩ productC5
      (by decide) (by decide) (by decide) (by decide) (by rfl) (by decide)).2
      (by decide)

/-! Claim C1. -/

/-- A product with stock 10, used as a concrete input (scenario B). -/
def productC1 : Product := ⟨"p1", "Widget", 10, false⟩

/-- Store holding only `productC1`, used as a concrete input. -/
def dbC1 : DB := ⟨[productC1], [], [], [], [], [], [], [], []⟩

/-- A completed sale payload with one item of quantity 4 at unit price 8
(scenario B), used as a concrete input. -/
def saleC1 : Sale :=
  ⟨"s1", "S1", "completed", 0, 0, 0, none, [⟨"sit1", "", "p1", "", 4, 8, 0, 0, 0, false⟩], false⟩

/-- Claim C1 counterexample: creating a sale with one item of quantity 4 and
unit price 8 against a product with stock 10 succeeds and stores total 32,
but the product stock stays 10 — not 6 as the claim asserts.
SaleRepositoryImpl.Create persists only the header; no line item is written
and no stock delta is applied. -/
theorem sale_create_counterexample :
    (SaleHandler.CreateSale dbC1 saleC1).2 = none ∧
    (SaleHandler.CreateSale dbC1 saleC1).1.sales.map Sale.total = [32] ∧
    (SaleHandler.CreateSale dbC1 saleC1).1.products.map Product.stock = [10] ∧
    ¬ (SaleHandler.CreateSale dbC1 saleC1).1.products.map Product.stock = [6] := by
  refine ⟨?_, ?_, by decide, by decide⟩ <;>
  · simp only [SaleHandler.CreateSale, dbC1, saleC1, SaleRepositoryImpl.Create,
      Models.Sale.Validate, Models.Sale.CalculateTotals, productC1, pure, Except.pure]
    norm_num

/-- Claim C1 (amended): creating a sale persists ONLY the header row: the
`sale_items` table and every product stock are left exactly as they were
(no negative stock delta is applied at creation for the sale family), and
the stored header total is the handler-computed sum
`unit_price * quantity + tax - discount` over the payload items when the
caller total is 0, otherwise the caller total itself. -/
theorem sale_create_amended (db : DB) (sale : Sale) (db' : DB)
    (hok : SaleHandler.CreateSale db sale = (db', none)) :
    db'.products = db.products ∧
    db'.saleItems = db.saleItems ∧
    ∃ row : Sale, db'.sales = db.sales ++ [row] ∧
      row.total = (if sale.total = 0
        then (sale.items.map fun it =>
          it.unitPrice * (it.quantity : Rat) + it.tax - it.discount).sum
        else sale.total) := by
  simp only [SaleHandler.CreateSale] at hok
  set sale2 := if sale.total = 0 then Models.Sale.CalculateTotals sale else sale with hsale2
  split at hok
  · exact absurd hok (by simp)
  · split at hok
    · exact absurd hok (by simp)
    · split at hok
      · exact absurd hok (by simp)
      · rename_i db1 hcreate
        have hdb : db1 = db' := by
          have := congrArg Prod.fst hok
          simpa using this
        subst hdb
        have htot : sale2.total = (if sale.total = 0
            then (sale.items.map fun it =>
              it.unitPrice * (it.quantity : Rat) + it.tax - it.discount).sum
            else sale.total) := by
          rw [hsale2]
          by_cases h0 : sale.total = 0 <;> simp [h0, Models.Sale.CalculateTotals]
        simp only [SaleRepositoryImpl.Create] at hcreate
        split at hcreate
        · exact absurd hcreate (by simp)
        · split at hcreate <;>
          · simp only [pure, Except.pure, Except.ok.injEq] at hcreate
            subst hcreate
            exact ⟨rfl, rfl, _, rfl, htot⟩

/-- The store after scenario B, used as a concrete input. -/
def dbC1' : DB := (SaleHandler.CreateSale dbC1 saleC1).1

/-- Witness for C1 (amended) at scenario B: products and sale items
untouched, one header appended carrying the computed total. -/
theorem sale_create_amended_witness :
    dbC1'.products = dbC1.products ∧
    dbC1'.saleItems = dbC1.saleItems ∧
    ∃ row : Sale, dbC1'.sales = dbC1.sales ++ [row] ∧
      row.total = (if saleC1.total = 0
        then (saleC1.items.map fun it =>
          it.unitPrice * (it.quantity : Rat) + it.tax - it.discount).sum
        else saleC1.total) :=
  sale_create_amended dbC1 saleC1 dbC1' (by rfl)

/-! Claim C6. -/

/-- The stock register read: the stock of the (first) surviving-or-not row
of `products` with the given id, if any. -/
def stockOf (db : DB) (pid : String) : Option Int :=
  (db.products.find? fun p => p.id = pid).map Product.stock

/-- Finding a stock value by id commutes with the row rewrite of
`updateProductStock`, because the rewrite preserves ids. -/
theorem find?_map_stock (l : List Product) (pid qid : String) (d : Int) :
    ((l.map fun p => if p.id = pid then { p with stock := p.stock + d } else p).find?
        fun p => p.id = qid).map Product.stock =
      if pid = qid
        then ((l.find? fun p => p.id = qid).map Product.stock).map (· + d)
        else (l.find? fun p => p.id = qid).map Product.stock := by
  induction l with
  | nil => by_cases h : pid = qid <;> simp [h]
  | cons a l ih =>
    have hfa : (if a.id = pid then { a with stock := a.stock + d } else a).id = a.id := by
      by_cases h : a.id = pid <;> simp [h]
    by_cases haq : a.id = qid
    · rw [List.map_cons,
        List.find?_cons_of_pos _ (by simp only [decide_eq_true_eq, hfa]; exact haq),
        List.find?_cons_of_pos _ (by simp [haq])]
      by_cases hpq : pid = qid
      · have hap : a.id = pid := by rw [haq, hpq]
        simp [hpq, hap]
      · have hap : ¬ a.id = pid := by rw [haq]; exact fun hc => hpq hc.symm
        simp [hpq, hap]
    · rw [List.map_cons,
        List.find?_cons_of_neg _ (by simp only [decide_eq_true_eq, hfa]; exact haq),
        List.find?_cons_of_neg _ (by simp [haq])]
      exact ih

/-- Reading the register after one `apply_delta`. -/
theorem stockOf_updateProductStock (db : DB) (pid qid : String) (d : Int) :
    stockOf (updateProductStock db pid d) qid =
      if pid = qid then (stockOf db qid).map (· + d) else stockOf db qid := by
  unfold stockOf updateProductStock
  exact find?_map_stock db.products pid qid d

/-- Reading the register after the per-row revert loop of
`StockInRepositoryImpl.Delete`: each product lost the sum of the quantities
of the fetched rows that name it. -/
theorem stockOf_foldl_revert (rows : List StockInItem) (db : DB) (pid : String) :
    stockOf (rows.foldl (fun (d : DB) (it : StockInItem) =>
        updateProductStock d it.productID (-it.quantity)) db) pid =
      (stockOf db pid).map fun v =>
        v - ((rows.filter fun it => it.productID = pid).map StockInItem.quantity).sum := by
  induction rows generalizing db with
  | nil => cases h : stockOf db pid <;> simp [h]
  | cons a l ih =>
    rw [List.foldl_cons, ih, stockOf_updateProductStock]
    by_cases h : a.productID = pid
    · rw [if_pos h, List.filter_cons_of_pos (by simp [h])]
      cases stockOf db pid with
      | none => simp
      | some v =>
        simp only [Option.map_some', List.map_cons, List.sum_cons, Option.some.injEq]
        ring
    · rw [if_neg h, List.filter_cons_of_neg (by simp [h])]

/-- Claim C6 (amended): DeleteTransaction behaves differently per family.
Stock-in: items and header are soft-deleted and every product loses the
summed quantity of ALL the stock-in's item rows (the revert query has no
deleted filter, so previously item-deleted rows are reverted again).
Reject: items and header are soft-deleted but NO stock is touched.
Sale: only the header is soft-deleted — the items are not cascaded and no
stock is touched. -/
theorem delete_transaction_amended (db : DB) (sid rid said : String) :
    (∀ db1, StockInRepositoryImpl.Delete db sid = .ok db1 →
        (∀ it ∈ db1.stockInItems, it.stockInID = sid → it.deletedAt = true) ∧
        (∀ s ∈ db1.stockIns, s.id = sid → s.deletedAt = true) ∧
        (∀ pid, stockOf db1 pid = (stockOf db pid).map fun v =>
            v - (((db.stockInItems.filter fun it => it.stockInID = sid).filter
                fun it => it.productID = pid).map StockInItem.quantity).sum)) ∧
    (∀ db2, RejectRepositoryImpl.Delete db rid = .ok db2 →
        (∀ it ∈ db2.rejectItems, it.rejectID = rid → it.deletedAt = true) ∧
        (∀ r ∈ db2.rejects, r.id = rid → r.deletedAt = true) ∧
        db2.products = db.products) ∧
    (∀ db3, SaleRepositoryImpl.Delete db said = .ok db3 →
        (∀ s ∈ db3.sales, s.id = said → s.deletedAt = true) ∧
        db3.saleItems = db.saleItems ∧
        db3.products = db.products) := by
  refine ⟨?_, ?_, ?_⟩
  · intro db1 h
    simp only [StockInRepositoryImpl.Delete, Except.ok.injEq] at h
    subst h
    refine ⟨?_, ?_, ?_⟩
    · intro it hit hsid
      simp only [List.mem_map] at hit
      obtain ⟨a, ha, hat⟩ := hit
      by_cases hc : a.stockInID = sid
      · rw [if_pos hc] at hat
        rw [← hat]
      · rw [if_neg hc] at hat
        rw [← hat] at hsid
        exact absurd hsid hc
    · intro s hs hid
      simp only [List.mem_map] at hs
      obtain ⟨a, ha, hat⟩ := hs
      by_cases hc : a.id = sid
      · rw [if_pos hc] at hat
        rw [← hat]
      · rw [if_neg hc] at hat
        rw [← hat] at hid
        exact absurd hid hc
    · intro pid
      have hfold := stockOf_foldl_revert
        (db.stockInItems.filter fun it => it.stockInID = sid) db pid
      simp only [stockOf] at hfold ⊢
      exact hfold
  · intro db2 h
    simp only [RejectRepositoryImpl.Delete, Except.ok.injEq] at h
    subst h
    rw [updateRejectRowsNoStatus_eq]
    refine ⟨?_, ?_, rfl⟩
    · intro it hit hrid
      simp only [List.mem_map] at hit
      obtain ⟨a, ha, hat⟩ := hit
      by_cases hc : a.rejectID = rid
      · rw [if_pos hc] at hat
        rw [← hat]
      · rw [if_neg hc] at hat
        rw [← hat] at hrid
        exact absurd hrid hc
    · intro r hr hid
      simp only [List.mem_map] at hr
      obtain ⟨a, ha, hat⟩ := hr
      by_cases hc : a.id = rid
      · rw [if_pos hc] at hat
        rw [← hat]
      · rw [if_neg hc] at hat
        rw [← hat] at hid
        exact absurd hid hc
  · intro db3 h
    simp only [SaleRepositoryImpl.Delete] at h
    cases hm : ((db.sales.filter fun s => s.id = said).map Sale.status).mapM
        (fun st => updateProductQuantityAfterSale st st) with
    | error e =>
      rw [hm] at h
      exact absurd h (by simp [Bind.bind, Except.bind])
    | ok u =>
      rw [hm] at h
      simp only [Bind.bind, Except.bind, pure, Except.pure, Except.ok.injEq] at h
      subst h
      refine ⟨?_, rfl, rfl⟩
      intro s hs hid
      simp only [List.mem_map] at hs
      obtain ⟨a, ha, hat⟩ := hs
      by_cases hc : a.id = said
      · rw [if_pos hc] at hat
        rw [← hat]
      · rw [if_neg hc] at hat
        rw [← hat] at hid
        exact absurd hid hc

/-- A completed sale header, used as a concrete input. -/
def saleC6 : Sale := ⟨"s1", "S1", "completed", 32, 0, 0, none, [], false⟩

/-- Store with one sale and one (surviving) sale item row, used as a
concrete input. -/
def dbC6 : DB :=
  ⟨[], [], [], [], [], [saleC6], [⟨"sit1", "s1", "p1", "W", 4, 8, 0, 0, 32, false⟩], [], []⟩

/-- Claim C6 counterexample: deleting a sale soft-deletes the header but
does NOT cascade to its line items — after SaleRepositoryImpl.Delete the
sale item row is still not soft-deleted, contrary to the claim that all of
a deleted transaction's items are marked deleted. -/
theorem delete_transaction_counterexample :
    (SaleRepositoryImpl.Delete dbC6 "s1").toOption.map
        (fun d => d.sales.map Sale.deletedAt) = some [true] ∧
    (SaleRepositoryImpl.Delete dbC6 "s1").toOption.map
        (fun d => d.saleItems.map SaleItem.deletedAt) = some [false] ∧
    ¬ (SaleRepositoryImpl.Delete dbC6 "s1").toOption.map
        (fun d => d.saleItems.map SaleItem.deletedAt) = some [true] := by
  refine ⟨by decide, by decide, by decide⟩

/-- Store with one transaction of each family plus their item rows, used as
a concrete input for the delete behaviours. -/
def dbC6W : DB :=
  ⟨[⟨"p1", "W", 10, false⟩], [], [],
   [⟨"si1", "R", "draft", 20, 0, 0, none, [], false⟩],
   [⟨"it1", "si1", "p1", "W", 4, 5, 0, 0, 20, false⟩],
   [saleC6], [⟨"sit1", "s1", "p1", "W", 4, 8, 0, 0, 32, false⟩],
   [⟨"r1", "RR", "pending", 6, [], false⟩],
   [⟨"ri1", "r1", "p1", "W", 3, 2, 6, false⟩]⟩

/-- The store after deleting the stock-in, used as a concrete input. -/
def dbC6W1 : DB := (StockInRepositoryImpl.Delete dbC6W "si1").toOption.getD dbEmpty

/-- The store after deleting the reject, used as a concrete input. -/
def dbC6W2 : DB := (RejectRepositoryImpl.Delete dbC6W "r1").toOption.getD dbEmpty

/-- The store after deleting the sale, used as a concrete input. -/
def dbC6W3 : DB := (SaleRepositoryImpl.Delete dbC6W "s1").toOption.getD dbEmpty

/-- Witness for C6 (amended) at one concrete transaction per family. -/
theorem delete_transaction_amended_witness :
    stockOf dbC6W1 "p1" = (stockOf dbC6W "p1").map (fun v =>
      v - (((dbC6W.stockInItems.filter fun it => it.stockInID = "si1").filter
          fun it => it.productID = "p1").map StockInItem.quantity).sum) ∧
    dbC6W2.products = dbC6W.products ∧
    dbC6W3.saleItems = dbC6W.saleItems :=
  ⟨((delete_transaction_amended dbC6W "si1" "r1" "s1").1 dbC6W1 (by rfl)).2.2 "p1",
   ((delete_transaction_amended dbC6W "si1" "r1" "s1").2.1 dbC6W2 (by rfl)).2.2,
   ((delete_transaction_amended dbC6W "si1" "r1" "s1").2.2 dbC6W3 (by rfl)).2.1⟩

/-! Claims C3 and C4. -/

/-- A product with stock 10, used as a concrete input. -/
def productC3 : Product := ⟨"p3", "W", 10, false⟩

/-- Store holding only `productC3`, used as a concrete input. -/
def dbC3 : DB := ⟨[productC3], [], [], [], [], [], [], [], []⟩

/-- A stock-in payload with one item of quantity 5, used as a concrete
input. -/
def siC3 : StockIn := ⟨"si3", "R3", "draft", 0, 0, 0, none,
  [⟨"it3", "", "p3", "W", 5, 2, 0, 0, 10, false⟩], false⟩

/-- Create the stock-in, item-delete its only item, then delete the whole
stock-in: a fully-reversed sequence. -/
def dbC3final : Except String DB := do
  let d1 ← StockInRepositoryImpl.Create dbC3 siC3
  let d2 ← StockInRepositoryImpl.DeleteStockInItem d1 "it3"
  StockInRepositoryImpl.Delete d2 "si3"

/-- Claim C3 (code bug): for a product touched only by a fully-reversed
sequence — one stock-in created (stock 10 to 15), its item deleted (back to
10), then the stock-in itself deleted — the final stock is 5, not the
initial 10.  StockInRepositoryImpl.Delete reverts stock for ALL item rows,
including the already-soft-deleted one, so the reversal is applied twice. -/
theorem stock_conservation_code_bug :
    dbC3.products.map Product.stock = [10] ∧
    dbC3final.toOption.map (fun d => d.products.map Product.stock) = some [5] ∧
    ¬ dbC3final.toOption.map (fun d => d.products.map Product.stock) = some [10] := by
  refine ⟨by decide, by decide, by decide⟩

/-- The store after creating the stock-in (stock 15), used as a concrete
input. -/
def dbC4a : DB := (StockInRepositoryImpl.Create dbC3 siC3).toOption.getD dbEmpty

/-- The store after the first item delete (stock back to 10), used as a
concrete input. -/
def dbC4b : DB := (StockInRepositoryImpl.DeleteStockInItem dbC4a "it3").toOption.getD dbEmpty

/-- Claim C4 (code bug): deleting an already-deleted stock-in item is NOT a
no-op.  The row fetch in DeleteStockInItem has no `deleted_at IS NULL`
filter, so a second delete of the same item succeeds and applies the stock
reversal again: stock drops from 10 to 5 instead of staying at 10. -/
theorem delete_item_idempotence_code_bug :
    dbC4b.products.map Product.stock = [10] ∧
    dbC4b.stockInItems.map StockInItem.deletedAt = [true] ∧
    (StockInRepositoryImpl.DeleteStockInItem dbC4b "it3").toOption.map
        (fun d => d.products.map Product.stock) = some [5] ∧
    ¬ (StockInRepositoryImpl.DeleteStockInItem dbC4b "it3").toOption.map
        (fun d => d.products.map Product.stock) = some [10] := by
  refine ⟨by decide, by decide, by decide, by decide⟩

/-! Claim C8. -/

/-- After a committed stock-in item update, every row carrying the updated
id stores exactly the payload subtotal. -/
theorem updateStockInItem_subtotal {db db1 : DB} {item : StockInItem}
    (h : StockInRepositoryImpl.UpdateStockInItem db item = .ok db1) :
    ∀ row ∈ db1.stockInItems, row.id = item.id → row.subtotal = item.subtotal := by
  simp only [StockInRepositoryImpl.UpdateStockInItem] at h
  split at h
  · exact absurd h (by simp)
  · rename_i orig hfind
    split at h
    · exact absurd h (by simp)
    · rename_i v hsum
      simp only [pure, Except.pure, Except.ok.injEq] at h
      subst h
      intro row hrow hid
      rw [setStockInTotal_stockInItems] at hrow
      have hrow2 : row ∈ (({ db with stockInItems := db.stockInItems.map fun it =>
          if it.id = item.id then
            { it with productID := item.productID, productName := item.productName,
                      quantity := item.quantity, unitCost := item.unitCost,
                      tax := item.tax, discount := item.discount,
                      subtotal := item.subtotal }
          else it } : DB)).stockInItems := by
        revert hrow
        split <;> exact fun hrow => hrow
      simp only [List.mem_map] at hrow2
      obtain ⟨a, ha, hat⟩ := hrow2
      by_cases hc : a.id = item.id
      · rw [if_pos hc] at hat
        rw [← hat]
      · rw [if_neg hc] at hat
        rw [← hat] at hid
        exact absurd hid hc

/-- After a committed reject item update, every surviving row carrying the
updated id stores exactly the payload subtotal (soft-deleted rows are not
touched by the WHERE clause). -/
theorem updateRejectItem_subtotal {db db1 : DB} {item : RejectItem}
    (h : RejectRepositoryImpl.UpdateRejectItem db item = .ok db1) :
    ∀ row ∈ db1.rejectItems, row.id = item.id → row.deletedAt = false →
      row.subtotal = item.subtotal := by
  simp only [RejectRepositoryImpl.UpdateRejectItem, Except.ok.injEq] at h
  subst h
  intro row hrow hid hdel
  rw [setRejectTotal_rejectItems] at hrow
  simp only [List.mem_map] at hrow
  obtain ⟨a, ha, hat⟩ := hrow
  by_cases hc : a.id = item.id ∧ a.deletedAt = false
  · rw [if_pos hc] at hat
    rw [← hat]
  · rw [if_neg hc] at hat
    rw [← hat] at hid hdel
    exact absurd ⟨hid, hdel⟩ hc

/-- Inserting one stock-in item appends exactly the parent-tagged row to
`stock_in_items`. -/
theorem insertStockInItem_items {sid : String} {db db' : DB} {item : StockInItem}
    (h : StockInRepositoryImpl.insertStockInItem sid db item = .ok db') :
    db'.stockInItems = db.stockInItems ++
      [{ item with stockInID := sid, deletedAt := false }] := by
  simp only [StockInRepositoryImpl.insertStockInItem] at h
  split at h
  · exact absurd h (by simp)
  split at h
  · simp only [pure, Except.pure, Except.ok.injEq] at h
    subst h
    rw [updateProductStock_stockInItems]
  · exact absurd h (by simp)

/-- The item-insertion loop of the stock-in Create appends exactly the
parent-tagged payload rows. -/
theorem foldlM_insertStockInItem_items (items : List StockInItem) (sid : String)
    {db db' : DB}
    (h : items.foldlM (StockInRepositoryImpl.insertStockInItem sid) db = .ok db') :
    db'.stockInItems = db.stockInItems ++
      (items.map fun it => { it with stockInID := sid, deletedAt := false }) := by
  induction items generalizing db with
  | nil =>
    simp only [List.foldlM_nil, pure, Except.pure, Except.ok.injEq] at h
    subst h
    simp
  | cons a l ih =>
    rw [List.foldlM_cons] at h
    cases hins : StockInRepositoryImpl.insertStockInItem sid db a with
    | error e => rw [hins] at h; exact absurd h (by simp [Bind.bind, Except.bind])
    | ok mid =>
      rw [hins] at h
      simp only [Bind.bind, Except.bind] at h
      rw [ih h, insertStockInItem_items hins]
      simp

/-- Inserting one reject item appends exactly the parent-tagged row to
`reject_items`. -/
theorem insertRejectItem_items {rid : String} {db db' : DB} {item : RejectItem}
    (h : RejectRepositoryImpl.insertRejectItem rid db item = .ok db') :
    db'.rejectItems = db.rejectItems ++
      [{ item with rejectID := rid, deletedAt := false }] := by
  simp only [RejectRepositoryImpl.insertRejectItem] at h
  split at h
  · exact absurd h (by simp)
  split at h
  · simp only [pure, Except.pure, Except.ok.injEq] at h
    subst h
    rfl
  · exact absurd h (by simp)

/-- The item-insertion loop of the reject Create appends exactly the
parent-tagged payload rows. -/
theorem foldlM_insertRejectItem_items (items : List RejectItem) (rid : String)
    {db db' : DB}
    (h : items.foldlM (RejectRepositoryImpl.insertRejectItem rid) db = .ok db') :
    db'.rejectItems = db.rejectItems ++
      (items.map fun it => { it with rejectID := rid, deletedAt := false }) := by
  induction items generalizing db with
  | nil =>
    simp only [List.foldlM_nil, pure, Except.pure, Except.ok.injEq] at h
    subst h
    simp
  | cons a l ih =>
    rw [List.foldlM_cons] at h
    cases hins : RejectRepositoryImpl.insertRejectItem rid db a with
    | error e => rw [hins] at h; exact absurd h (by simp [Bind.bind, Except.bind])
    | ok mid =>
      rw [hins] at h
      simp only [Bind.bind, Except.bind] at h
      rw [ih h, insertRejectItem_items hins]
      simp

/-- A committed stock-in Create appends exactly the parent-tagged payload
rows to `stock_in_items`. -/
theorem stockInCreate_items {db db' : DB} {stockIn : StockIn}
    (h : StockInRepositoryImpl.Create db stockIn = .ok db') :
    db'.stockInItems = db.stockInItems ++
      (stockIn.items.map fun it =>
        { it with stockInID := stockIn.id, deletedAt := false }) := by
  simp only [StockInRepositoryImpl.Create] at h
  split at h
  · exact absurd h (by simp)
  · cases hfold : stockIn.items.foldlM
        (StockInRepositoryImpl.insertStockInItem stockIn.id)
        { db with stockIns := db.stockIns ++
            [{ stockIn with items := [], deletedAt := false }] } with
    | error e => rw [hfold] at h; exact absurd h (by simp [Bind.bind, Except.bind])
    | ok mid =>
      rw [hfold] at h
      simp only [Bind.bind, Except.bind] at h
      have hmid := foldlM_insertStockInItem_items stockIn.items stockIn.id hfold
      split at h <;>
      · simp only [pure, Except.pure, Except.ok.injEq] at h
        subst h
        exact hmid

/-- A committed reject Create appends exactly the parent-tagged payload
rows to `reject_items`. -/
theorem rejectCreate_items {db db' : DB} {reject : Reject}
    (h : RejectRepositoryImpl.Create db reject = .ok db') :
    db'.rejectItems = db.rejectItems ++
      (reject.items.map fun it =>
        { it with rejectID := reject.id, deletedAt := false }) := by
  simp only [RejectRepositoryImpl.Create] at h
  split at h
  · exact absurd h (by simp)
  · cases hfold : reject.items.foldlM
        (RejectRepositoryImpl.insertRejectItem reject.id)
        { db with rejects := db.rejects ++
            [{ reject with items := [], deletedAt := false }] } with
    | error e => rw [hfold] at h; exact absurd h (by simp [Bind.bind, Except.bind])
    | ok mid =>
      rw [hfold] at h
      simp only [Bind.bind, Except.bind] at h
      have hmid := foldlM_insertRejectItem_items reject.items reject.id hfold
      split at h
      · simp only [pure, Except.pure, Except.ok.injEq] at h
        subst h
        rw [setRejectTotal_rejectItems]
        exact hmid
      · simp only [pure, Except.pure, Except.ok.injEq] at h
        subst h
        exact hmid

/-- A committed stock-in item add appends exactly the payload row. -/
theorem addStockInItem_items {db db' : DB} {item : StockInItem}
    (h : StockInRepositoryImpl.AddStockInItem db item = .ok db') :
    db'.stockInItems = db.stockInItems ++ [{ item with deletedAt := false }] := by
  simp only [StockInRepositoryImpl.AddStockInItem] at h
  split at h
  · exact absurd h (by simp)
  split at h
  · split at h
    · split at h
      · exact absurd h (by simp)
      · simp only [pure, Except.pure, Except.ok.injEq] at h
        subst h
        rw [setStockInTotal_stockInItems, updateProductStock_stockInItems]
    · exact absurd h (by simp)
  · exact absurd h (by simp)

/-- A committed reject item add appends exactly the payload row. -/
theorem addRejectItem_items {db db' : DB} {item : RejectItem}
    (h : RejectRepositoryImpl.AddRejectItem db item = .ok db') :
    db'.rejectItems = db.rejectItems ++ [{ item with deletedAt := false }] := by
  simp only [RejectRepositoryImpl.AddRejectItem] at h
  split at h
  · exact absurd h (by simp)
  split at h
  · split at h
    · simp only [pure, Except.pure, Except.ok.injEq] at h
      subst h
      rw [setRejectTotal_rejectItems]
    · exact absurd h (by simp)
  · exact absurd h (by simp)

/-- The per-item validation loop of the stock-in creation handler derives
`subtotal = unit_cost * quantity` exactly for the items whose caller
subtotal is 0 and keeps every other caller subtotal verbatim. -/
theorem validateStockInItems_subtotals {db : DB} (items : List StockInItem)
    {items' : List StockInItem}
    (h : StockInHandler.validateStockInItems db items = .ok items') :
    items'.map StockInItem.subtotal = items.map fun it =>
      if it.subtotal = 0 then it.unitCost * (it.quantity : Rat) else it.subtotal := by
  induction items generalizing items' with
  | nil =>
    simp only [StockInHandler.validateStockInItems, Except.ok.injEq] at h
    subst h
    simp
  | cons a l ih =>
    simp only [StockInHandler.validateStockInItems] at h
    split at h
    · exact absurd h (by simp)
    split at h
    · exact absurd h (by simp)
    · split at h
      · exact absurd h (by simp)
      · split at h
        · exact absurd h (by simp)
        · rename_i rest1 hrest
          simp only [Except.ok.injEq] at h
          subst h
          rw [List.map_cons, List.map_cons, ih hrest]
          congr 1
          by_cases h1 : a.productName = "" <;> by_cases h2 : a.subtotal = 0 <;>
            simp [h1, h2]

/-- The per-item validation loop of the reject creation handler derives
`subtotal = unit_cost * quantity` exactly for the items whose caller
subtotal is 0 and keeps every other caller subtotal verbatim. -/
theorem validateRejectItems_subtotals {db : DB} {status : String}
    (items : List RejectItem) {items' : List RejectItem}
    (h : RejectHandler.validateRejectItems db status items = .ok items') :
    items'.map RejectItem.subtotal = items.map fun it =>
      if it.subtotal = 0 then it.unitCost * (it.quantity : Rat) else it.subtotal := by
  induction items generalizing items' with
  | nil =>
    simp only [RejectHandler.validateRejectItems, Except.ok.injEq] at h
    subst h
    simp
  | cons a l ih =>
    simp only [RejectHandler.validateRejectItems] at h
    split at h
    · exact absurd h (by simp)
    split at h
    · exact absurd h (by simp)
    · split at h
      · exact absurd h (by simp)
      · simp only [apply_ite RejectItem.quantity, ite_self] at h
        split at h
        · exact absurd h (by simp)
        · split at h
          · exact absurd h (by simp)
          · rename_i rest1 hrest
            simp only [Except.ok.injEq] at h
            subst h
            rw [List.map_cons, List.map_cons, ih hrest]
            congr 1
            by_cases h1 : a.productName = "" <;> by_cases h2 : a.subtotal = 0 <;>
              simp [h1, h2]

/-- Claim C8 (amended): whenever a line item is created — as part of a
stock-in or reject transaction creation, or through the add-item handlers —
or updated, its persisted subtotal is `quantity * unit_value` ONLY when the
caller-supplied subtotal is 0; a non-zero caller subtotal is trusted and
persisted as given, even when it is derivable from quantity and unit
value.  (Stock-in and reject subtotal formulas carry no tax or discount
term; sale items are never persisted, see C1.) -/
theorem subtotal_recompute_amended (db : DB) (sidURL iid rjID : String)
    (stockIn : StockIn) (reject : Reject)
    (item : StockInItem) (ritem : RejectItem) :
    (∀ db1, StockInHandler.CreateStockIn db stockIn = (db1, none) →
      db1.stockInItems.map StockInItem.subtotal =
        db.stockInItems.map StockInItem.subtotal ++
        stockIn.items.map fun it => if it.subtotal = 0
          then it.unitCost * (it.quantity : Rat) else it.subtotal) ∧
    (∀ db2, RejectHandler.CreateReject db reject = (db2, none) →
      db2.rejectItems.map RejectItem.subtotal =
        db.rejectItems.map RejectItem.subtotal ++
        reject.items.map fun it => if it.subtotal = 0
          then it.unitCost * (it.quantity : Rat) else it.subtotal) ∧
    (∀ db3, StockInHandler.AddStockInItem db sidURL item = (db3, none) →
      db3.stockInItems.map StockInItem.subtotal =
        db.stockInItems.map StockInItem.subtotal ++
        [if item.subtotal = 0
          then item.unitCost * (item.quantity : Rat) else item.subtotal]) ∧
    (∀ db4, RejectHandler.AddRejectItem db rjID ritem = (db4, none) →
      db4.rejectItems.map RejectItem.subtotal =
        db.rejectItems.map RejectItem.subtotal ++
        [if ritem.subtotal = 0
          then ritem.unitCost * (ritem.quantity : Rat) else ritem.subtotal]) ∧
    (∀ db5, StockInHandler.UpdateStockInItem db sidURL iid item = (db5, none) →
      ∀ row ∈ db5.stockInItems, row.id = iid →
        row.subtotal = (if item.subtotal = 0
          then item.unitCost * (item.quantity : Rat) else item.subtotal)) ∧
    (∀ db6, RejectHandler.UpdateRejectItem db rjID iid ritem = (db6, none) →
      ∀ row ∈ db6.rejectItems, row.id = iid → row.deletedAt = false →
        row.subtotal = (if ritem.subtotal = 0
          then ritem.unitCost * (ritem.quantity : Rat) else ritem.subtotal)) := by
  refine ⟨?_, ?_, ?_, ?_, ?_, ?_⟩
  · intro db1 h
    simp only [StockInHandler.CreateStockIn] at h
    split at h
    · exact absurd h (by simp)
    · split at h
      · exact absurd h (by simp)
      · split at h
        · exact absurd h (by simp)
        · rename_i items1 hval
          split at h
          · exact absurd h (by simp)
          · rename_i dbr hcreate
            have hdb : dbr = db1 := by
              have := congrArg Prod.fst h
              simpa using this
            subst hdb
            rw [stockInCreate_items hcreate, List.map_append, List.map_map]
            congr 1
            exact validateStockInItems_subtotals stockIn.items hval
  · intro db2 h
    simp only [RejectHandler.CreateReject] at h
    split at h
    · exact absurd h (by simp)
    · split at h
      · exact absurd h (by simp)
      · rename_i items1 hval
        split at h
        · exact absurd h (by simp)
        · rename_i dbr hcreate
          have hdb : dbr = db2 := by
            have := congrArg Prod.fst h
            simpa using this
          subst hdb
          rw [rejectCreate_items hcreate, List.map_append, List.map_map]
          congr 1
          exact validateRejectItems_subtotals reject.items hval
  · intro db3 h
    simp only [StockInHandler.AddStockInItem] at h
    split at h
    · exact absurd h (by simp)
    · exact absurd h (by simp)
    · split at h
      · exact absurd h (by simp)
      split at h
      · exact absurd h (by simp)
      · split at h
        · exact absurd h (by simp)
        · split at h
          · exact absurd h (by simp)
          · rename_i dbr hrepo
            have hdb : dbr = db3 := by
              have := congrArg Prod.fst h
              simpa using this
            subst hdb
            rw [addStockInItem_items hrepo, List.map_append]
            congr 1
            by_cases h1 : item.productName = "" <;> by_cases h2 : item.subtotal = 0 <;>
              simp [h1, h2]
  · intro db4 h
    simp only [RejectHandler.AddRejectItem] at h
    split at h
    · exact absurd h (by simp)
    · split at h
      · exact absurd h (by simp)
      · split at h
        · exact absurd h (by simp)
        split at h
        · exact absurd h (by simp)
        · split at h
          · exact absurd h (by simp)
          · split at h
            · exact absurd h (by simp)
            · rename_i dbr hrepo
              have hdb : dbr = db4 := by
                have := congrArg Prod.fst h
                simpa using this
              subst hdb
              rw [addRejectItem_items hrepo, List.map_append]
              congr 1
              by_cases h1 : ritem.productName = "" <;> by_cases h2 : ritem.subtotal = 0 <;>
                simp [h1, h2]
  · intro db5 h
    simp only [StockInHandler.UpdateStockInItem] at h
    split at h
    · exact absurd h (by simp)
    split at h
    · exact absurd h (by simp)
    · split at h
      · exact absurd h (by simp)
      · rename_i dbr hrepo
        have hdb : dbr = db5 := by
          have := congrArg Prod.fst h
          simpa using this
        subst hdb
        intro row hrow hid
        have hsub := updateStockInItem_subtotal hrepo row hrow
          (by by_cases h0 : item.subtotal = 0 <;> simp [h0, hid])
        rw [hsub]
        by_cases h0 : item.subtotal = 0 <;> simp [h0]
  · intro db6 h
    simp only [RejectHandler.UpdateRejectItem] at h
    split at h
    · exact absurd h (by simp)
    · split at h
      · exact absurd h (by simp)
      · split at h
        · exact absurd h (by simp)
        split at h
        · exact absurd h (by simp)
        · split at h
          · exact absurd h (by simp)
          · rename_i dbr hrepo
            have hdb : dbr = db6 := by
              have := congrArg Prod.fst h
              simpa using this
            subst hdb
            intro row hrow hid hdel
            have hsub := updateRejectItem_subtotal hrepo row hrow
              (by by_cases h0 : ritem.subtotal = 0 <;> simp [h0, hid]) hdel
            rw [hsub]
            by_cases h0 : ritem.subtotal = 0 <;> simp [h0]

/-- Store with one stock-in (one item) and one pending reject (one item),
used as a concrete input for the subtotal-trust behaviour. -/
def dbC8W : DB := ⟨[⟨"p3", "W", 15, false⟩], [], [],
  [⟨"si3", "R3", "draft", 10, 0, 0, none, [], false⟩],
  [⟨"it3", "si3", "p3", "W", 5, 2, 0, 0, 10, false⟩],
  [], [],
  [⟨"r8", "RR", "pending", 6, [], false⟩],
  [⟨"ri8", "r8", "p3", "W", 3, 2, 6, false⟩]⟩

/-- Update payload claiming subtotal 999 for quantity 2 at unit cost 5,
used as a concrete input. -/
def updC8 : StockInItem := ⟨"", "", "p3", "W", 2, 5, 0, 0, 999, false⟩

/-- A stock-in creation payload whose single item claims subtotal 999 for
quantity 2 at unit cost 5, used as a concrete input. -/
def siC8 : StockIn := ⟨"si8", "R8", "draft", 0, 0, 0, none,
  [⟨"it8", "", "p3", "W", 2, 5, 0, 0, 999, false⟩], false⟩

/-- Claim C8 counterexample: both at creation and at update, a
caller-supplied subtotal of 999 for quantity 2 at unit cost 5 is persisted
as 999, not the derivable 2 * 5 = 10 — a derivable caller subtotal IS
trusted whenever it is non-zero. -/
theorem subtotal_recompute_counterexample :
    (StockInHandler.UpdateStockInItem dbC8W "si3" "it3" updC8).2 = none ∧
    (StockInHandler.UpdateStockInItem dbC8W "si3" "it3" updC8).1.stockInItems.map
        StockInItem.subtotal = [999] ∧
    ¬ (StockInHandler.UpdateStockInItem dbC8W "si3" "it3" updC8).1.stockInItems.map
        StockInItem.subtotal = [10] ∧
    (StockInHandler.CreateStockIn dbC8W siC8).2 = none ∧
    (StockInHandler.CreateStockIn dbC8W siC8).1.stockInItems.map
        StockInItem.subtotal = [10, 999] ∧
    ¬ (StockInHandler.CreateStockIn dbC8W siC8).1.stockInItems.map
        StockInItem.subtotal = [10, 10] := by
  refine ⟨by decide, by decide, by decide⟩

/-- The store after the stock-in item update, used as a concrete input. -/
def dbC8W1 : DB := (StockInHandler.UpdateStockInItem dbC8W "si3" "it3" updC8).1

/-- The stock-in item row as persisted by the update, used as a concrete
input. -/
def rowC8 : StockInItem := ⟨"it3", "si3", "p3", "W", 2, 5, 0, 0, 999, false⟩

/-- Add-item payload claiming subtotal 999 for quantity 2 at unit cost 5,
used as a concrete input. -/
def addC8 : StockInItem := ⟨"it9", "", "p3", "W", 2, 5, 0, 0, 999, false⟩

/-- The store after adding `addC8` to the stock-in, used as a concrete
input. -/
def dbC8Wadd : DB := (StockInHandler.AddStockInItem dbC8W "si3" addC8).1

/-- A reject item payload, used as a concrete input. -/
def ritC8 : RejectItem := ⟨"", "", "p3", "W", 2, 5, 999, false⟩

/-- Witness for C8 (amended): a newly created item row and an updated row
both carry the trusted caller subtotal of their payloads. -/
theorem subtotal_recompute_amended_witness :
    dbC8Wadd.stockInItems.map StockInItem.subtotal =
      dbC8W.stockInItems.map StockInItem.subtotal ++
      [if addC8.subtotal = 0
        then addC8.unitCost * (addC8.quantity : Rat) else addC8.subtotal] ∧
    rowC8 ∈ dbC8W1.stockInItems ∧
    rowC8.subtotal = (if updC8.subtotal = 0
      then updC8.unitCost * (updC8.quantity : Rat) else updC8.subtotal) :=
  ⟨(subtotal_recompute_amended dbC8W "si3" "it3" "r8" siC8
      ⟨"rx", "RX", "pending", 0, [], false⟩ addC8 ritC8).2.2.1 dbC8Wadd (by rfl),
   by decide,
   (subtotal_recompute_amended dbC8W "si3" "it3" "r8" siC8
      ⟨"rx", "RX", "pending", 0, [], false⟩ updC8 ritC8).2.2.2.2.1
     dbC8W1 (by rfl) rowC8 (by decide) (by rfl)⟩

/-! Claim C9. -/

/-- A product with stock 0, used as a concrete input (scenario A). -/
def productC9 : Product := ⟨"p9", "Widget", 0, false⟩

/-- Store holding only `productC9`, used as a concrete input. -/
def dbC9 : DB := ⟨[productC9], [], [], [], [], [], [], [], []⟩

/-- A stock-in payload with one item of quantity 10 at unit cost 5 and no
caller-supplied subtotal or total (scenario A), used as a concrete input. -/
def siC9 : StockIn := ⟨"si9", "R9", "draft", 0, 0, 0, none,
  [⟨"it9", "", "p9", "", 10, 5, 0, 0, 0, false⟩], false⟩

/-- Claim C9 counterexample: scenario A gives stock 10 as claimed, but the
persisted header total is NOT 50: neither the handler nor
StockInRepositoryImpl.Create ever derives the header total from the items,
so the caller-supplied total (0) is persisted. -/
theorem stockin_scenario_counterexample :
    (StockInHandler.CreateStockIn dbC9 siC9).2 = none ∧
    (StockInHandler.CreateStockIn dbC9 siC9).1.products.map Product.stock = [10] ∧
    ¬ (StockInHandler.CreateStockIn dbC9 siC9).1.stockIns.map StockIn.total = [50] := by
  refine ⟨by decide, by decide, by decide⟩

/-- Claim C9 (amended): creating the scenario-A stock-in increments the
product stock to 10 at item-persistence time and stores the derived item
subtotal 50, but the persisted header total is the caller-supplied 0 — the
header total only becomes the item sum after a later add, update or delete
item operation recomputes it. -/
theorem stockin_scenario_amended :
    (StockInHandler.CreateStockIn dbC9 siC9).2 = none ∧
    (StockInHandler.CreateStockIn dbC9 siC9).1.products.map Product.stock = [10] ∧
    (StockInHandler.CreateStockIn dbC9 siC9).1.stockInItems.map
        StockInItem.subtotal = [50] ∧
    (StockInHandler.CreateStockIn dbC9 siC9).1.stockIns.map StockIn.total = [0] := by
  refine ⟨by decide, by decide, ?_, by decide⟩
  simp [StockInHandler.CreateStockIn, StockInHandler.validateStockInItems,
    dbC9, siC9, productC9, StockInRepositoryImpl.Create,
    StockInRepositoryImpl.insertStockInItem,
    ProductRepositoryImpl.GetByID, updateProductStock, pure, Except.pure,
    List.foldlM_cons, List.foldlM_nil, Bind.bind, Except.bind]
  norm_num
